import Mathlib

/-!
Verification of the cue-sheet core of the cbae tool
(source: src/unnamed/part_000, the current ES-module version of cdinfos.js;
the older CommonJS copy in src/source/app/cdinfos.js differs only in details
noted in comments).

Modelling conventions for the shallow embedding:
* JS numbers are modelled as Lean Int (all arithmetic in the program stays
  integral); JS bit-free integer division Math.floor(a/b) is Int.fdiv and the
  JS remainder operator a % b (sign of the dividend) is Int.tmod.
* Strings are Lean String, manipulated through their underlying List Char
  so that every operation is a plain computable function.
* toUpperCase is modelled on ASCII letters (the sheets the program consumes
  are ASCII); the JS character classes \w and \s are modelled by their ASCII
  subsets.  The regular expressions of the source are compiled by hand into
  matcher functions; greedy/backtracking behaviour is reproduced where the
  character classes overlap (quotes inside .+, whitespace inside .+).  The
  rule that . does not match a line terminator is elided: the parser only
  ever sees lines produced by splitting on newlines and trimming, so no line
  terminator can occur inside a line.
* The mutable cdinfos object is threaded functionally.  The source field
  this.opentrack always aliases the last element of this.tracks (it is set
  exactly when a track is pushed and never cleared), so the embedding
  represents it as the last element of the track list.
* Filesystem access (existsSync + statSync().size) is a parameter
  fs : String -> Option Int keyed by the file name declared in the sheet
  (the join with the sheet directory is a fixed injective prefixing and is
  abstracted away), and the external jlib sanitizePath collaborator is a
  parameter san : String -> String.
-/

namespace Cbae

/-! ## Character helpers (ASCII models of the JS primitives) -/

/-- ASCII model of String.prototype.toUpperCase applied per character. -/
def upChar (c : Char) : Char :=
  if 97 ≤ c.toNat ∧ c.toNat ≤ 122 then Char.ofNat (c.toNat - 32) else c

/-- The JS regex class \w (word characters). -/
def isWordChar (c : Char) : Bool :=
  (('A' ≤ c ∧ c ≤ 'Z') ∨ ('a' ≤ c ∧ c ≤ 'z') ∨ ('0' ≤ c ∧ c ≤ '9') ∨ c = '_')

/-- The JS regex class \s (whitespace), ASCII part. -/
def isSpaceJS (c : Char) : Bool :=
  c = ' ' ∨ c = '\t' ∨ c = '\n' ∨ c = '\r' ∨ c = '\x0b' ∨ c = '\x0c'

/-- The JS regex class \d (the characters '0'..'9', codes 48..57). -/
def isDigitJS (c : Char) : Bool :=
  48 ≤ c.toNat ∧ c.toNat ≤ 57

/-- Does the character list start with the given keyword characters?
    (model of String.prototype.startsWith). -/
def startsKw : List Char → List Char → Bool
  | _, [] => true
  | [], _ :: _ => false
  | c :: cs, k :: ks => c = k && startsKw cs ks

/-- JS String.prototype.trim (ASCII whitespace model). -/
def jsTrimChars (l : List Char) : List Char :=
  ((l.dropWhile isSpaceJS).reverse.dropWhile isSpaceJS).reverse

def jsTrim (s : String) : String := ⟨jsTrimChars s.data⟩

def jsUpper (s : String) : String := ⟨s.data.map upChar⟩

/-- parseInt on an all-digit capture. -/
def parseIntD (l : List Char) : Int :=
  (l.foldl (fun n c => n * 10 + (c.toNat - 48)) 0 : Nat)

/-- Number.prototype.toString + padStart(2,'0') (used for track and index
    numbers and time fields). -/
def jsPad2 (s : String) : String :=
  if s.length ≥ 2 then s else ⟨'0' :: s.data⟩

def pad2Int (i : Int) : String := jsPad2 (toString i)

/-! ## Time-code model: class cuetime -/

/-- class cuetime of cdinfos.js: an INDEX / PREGAP time stamp.
    Fields are JS numbers, hence Int. -/
structure cuetime where
  no : Int
  minutes : Int
  seconds : Int
  frames : Int
  deriving Repr, DecidableEq, Inhabited

namespace cuetime

/-- toFrames(): (seconds * 75) + (minutes * 60 * 75) + frames. -/
def toFrames (t : cuetime) : Int :=
  t.seconds * 75 + t.minutes * 60 * 75 + t.frames

/-- fromFrames(f): minutes = Math.floor(f/4500), seconds =
    Math.floor((f%4500)/75), frames = f%75 (JS % keeps the dividend's sign,
    Math.floor is floor division). -/
def fromFrames (t : cuetime) (f : Int) : cuetime :=
  { t with
      minutes := Int.fdiv f 4500
      seconds := Int.fdiv (Int.tmod f 4500) 75
      frames := Int.tmod f 75 }

/-- toString(): MM:SS:FF with each field through padStart(2,'0'). -/
def toStr (t : cuetime) : String :=
  pad2Int t.minutes ++ ":" ++ pad2Int t.seconds ++ ":" ++ pad2Int t.frames

end cuetime

/-! ## Track record: class cdtrack -/

/-- class cdtrack.  Field initializers follow the JS class body
    (null becomes none; the JS null initializer of type is modelled as ""). -/
structure cdtrack where
  file : Option String := none
  type : String := ""
  no : Int := 0
  title : Option String := none
  artist : Option String := none
  pregap : Option cuetime := none
  indexes : List cuetime := []
  hash : String := "-"
  byteStart : Int := 0
  byteSize : Int := 0
  shared : Option String := none
  deriving Repr, DecidableEq

instance : Inhabited cdtrack := ⟨{}⟩

/-- indexExists(ind): this.indexes.some(a => a.no == ind). -/
def cdtrack.indexExists (t : cdtrack) (ind : Int) : Bool :=
  t.indexes.any fun a => a.no == ind

/-- get isData(): this.type != "AUDIO". -/
def cdtrack.isData (t : cdtrack) : Bool := t.type ≠ "AUDIO"

/-- get noStr(): this.no.toString().padStart(2,'0'). -/
def cdtrack.noStr (t : cdtrack) : String := pad2Int t.no

/-- The sectorsByType constant table (track type tag to sector byte size). -/
def sectorsByType (s : String) : Option Int :=
  if s = "AUDIO" then some 2352 else
  if s = "CDG" then some 2448 else
  if s = "MODE1_RAW" then some 2352 else
  if s = "MODE1/2048" then some 2048 else
  if s = "MODE1/2352" then some 2352 else
  if s = "MODE2_RAW" then some 2352 else
  if s = "MODE2/2048" then some 2048 else
  if s = "MODE2/2324" then some 2324 else
  if s = "MODE2/2336" then some 2336 else
  if s = "MODE2/2352" then some 2352 else
  if s = "CDI/2336" then some 2336 else
  if s = "CDI/2352" then some 2352 else none

def SUPPORTED_TRACK_FILES : List String := ["BINARY", "WAVE"]

/-! ## Hand-compiled matchers for the regular expressions of _cueParser

Each matcher is a function on the character list of the (already upper-cased,
except for FILE) line.  Greedy runs over disjoint character classes need no
backtracking; the two overlapping spots (a quote inside .+ and whitespace
inside .+) reproduce the backtracking behaviour of the JS engine. -/

/-- Tail matcher for \s+(.+) : greedy whitespace, then a non-empty capture.
    When nothing follows the whitespace run, the greedy \s+ gives one
    character back, so a run of at least two spaces still matches with the
    last space as the capture. -/
def matchSpRest (l : List Char) : Option (List Char) :=
  let sp := l.takeWhile isSpaceJS
  let r := l.dropWhile isSpaceJS
  if sp.isEmpty then none
  else if r.isEmpty then
    if sp.length ≥ 2 then some [sp.getLast!] else none
  else some r

/-- Matcher for /^\w+\s+(.+)/ (TITLE and PERFORMER lines). -/
def matchKeywordArg (l : List Char) : Option (List Char) :=
  let w := l.takeWhile isWordChar
  let r1 := l.dropWhile isWordChar
  if w.isEmpty then none else matchSpRest r1

/-- res[1].replace(/^\"(.*)\"/, "$1"): if the capture starts with a quote
    and holds a later quote, drop the leading quote and the LAST quote
    (greedy .*); otherwise leave it unchanged. -/
def stripQuotes (l : List Char) : List Char :=
  match l with
  | '"' :: rest =>
    if rest.contains '"' then
      let rrev := rest.reverse
      let before := ((rrev.dropWhile (fun c => c ≠ '"')).drop 1).reverse
      let after := (rrev.takeWhile (fun c => c ≠ '"')).reverse
      before ++ after
    else l
  | _ => l

/-- Inside /\"(.+)\"\s+(.+)/ after the opening quote: the greedy (.+) picks
    the LAST later quote whose tail still matches \s+(.+); candidates are
    tried from the right (backtracking order). -/
def fileQuoteSplit (r : List Char) : Option (List Char × List Char) :=
  (List.range r.length).reverse.findSome? fun k =>
    if r.getD k 'x' = '"' ∧ 1 ≤ k then
      match matchSpRest (r.drop (k + 1)) with
      | some cap2 => some (r.take k, cap2)
      | none => none
    else none

/-- Matcher for /^\w+\s+\"(.+)\"\s+(.+)/ (FILE lines, on the original-case
    line). -/
def matchFILE (l : List Char) : Option (List Char × List Char) :=
  let w := l.takeWhile isWordChar
  let r1 := l.dropWhile isWordChar
  if w.isEmpty then none else
  let sp := r1.takeWhile isSpaceJS
  let r2 := r1.dropWhile isSpaceJS
  if sp.isEmpty then none else
  match r2 with
  | '"' :: r3 => fileQuoteSplit r3
  | _ => none

/-- Matcher for /^\w+\s+(\d+)\s+(\S+)/ (TRACK lines). -/
def matchTRACK (l : List Char) : Option (List Char × List Char) :=
  let w := l.takeWhile isWordChar
  let r1 := l.dropWhile isWordChar
  if w.isEmpty then none else
  let sp := r1.takeWhile isSpaceJS
  let r2 := r1.dropWhile isSpaceJS
  if sp.isEmpty then none else
  let d := r2.takeWhile isDigitJS
  let r3 := r2.dropWhile isDigitJS
  if d.isEmpty then none else
  let sp2 := r3.takeWhile isSpaceJS
  let r4 := r3.dropWhile isSpaceJS
  if sp2.isEmpty then none else
  let ns := r4.takeWhile (fun c => ¬ isSpaceJS c)
  if ns.isEmpty then none else some (d, ns)

/-- (\d{1,2}) followed by a literal colon.  A digit run longer than two
    fails outright: retreating the greedy quantifier still faces a digit,
    never the colon. -/
def matchTwoDigitsColon (l : List Char) : Option (List Char × List Char) :=
  let d := l.takeWhile isDigitJS
  let r := l.dropWhile isDigitJS
  if d.isEmpty ∨ d.length > 2 then none
  else match r with
    | ':' :: r2 => some (d, r2)
    | _ => none

/-- Final (\d{1,2}) of the time stamp: nothing follows it in the pattern,
    so the greedy quantifier just takes up to two digits. -/
def matchFF (l : List Char) : Option (List Char) :=
  let d := l.takeWhile isDigitJS
  if d.isEmpty then none else some (d.take 2)

/-- Matcher for /^\w+\s+(\d+)\s+(\d{1,2}):(\d{1,2}):(\d{1,2})/
    (INDEX lines; four captures). -/
def matchINDEX (l : List Char) :
    Option (List Char × List Char × List Char × List Char) :=
  let w := l.takeWhile isWordChar
  let r1 := l.dropWhile isWordChar
  if w.isEmpty then none else
  let sp := r1.takeWhile isSpaceJS
  let r2 := r1.dropWhile isSpaceJS
  if sp.isEmpty then none else
  let d := r2.takeWhile isDigitJS
  let r3 := r2.dropWhile isDigitJS
  if d.isEmpty then none else
  let sp2 := r3.takeWhile isSpaceJS
  let r4 := r3.dropWhile isSpaceJS
  if sp2.isEmpty then none else
  match matchTwoDigitsColon r4 with
  | none => none
  | some (mm, r5) =>
    match matchTwoDigitsColon r5 with
    | none => none
    | some (ss, r6) =>
      match matchFF r6 with
      | none => none
      | some ff => some (d, mm, ss, ff)

/-- /\w+\s+(\d{1,2}):(\d{1,2}):(\d{1,2})/ anchored at the current position
    (one start candidate of the unanchored PREGAP pattern). -/
def matchTimeAt (l : List Char) : Option (List Char × List Char × List Char) :=
  let w := l.takeWhile isWordChar
  let r1 := l.dropWhile isWordChar
  if w.isEmpty then none else
  let sp := r1.takeWhile isSpaceJS
  let r2 := r1.dropWhile isSpaceJS
  if sp.isEmpty then none else
  match matchTwoDigitsColon r2 with
  | none => none
  | some (mm, r3) =>
    match matchTwoDigitsColon r3 with
    | none => none
    | some (ss, r4) =>
      match matchFF r4 with
      | none => none
      | some ff => some (mm, ss, ff)

/-- Matcher for the unanchored /\w+\s+(\d{1,2}):(\d{1,2}):(\d{1,2})/
    (PREGAP lines): leftmost start position that matches wins. -/
def matchPREGAP : List Char → Option (List Char × List Char × List Char)
  | [] => none
  | c :: rest =>
    match matchTimeAt (c :: rest) with
    | some r => some r
    | none => matchPREGAP rest

/-! ## Parser state: class cdinfos -/

/-- The cdinfos object (the fields touched by parsing and layout
    resolution; FILE_LOADED / FILE_DIR are abstracted into the fs
    parameter).  this.opentrack always aliases the last element of
    this.tracks, so it is represented by tracks.getLast?. -/
structure cdinfos where
  CD_ARTIST : String := ""
  CD_TITLE : String := ""
  CD_SIZE : Int := 0
  CD_FILE : String := ""
  tracks : List cdtrack := []
  openfile : Option String := none
  deriving Repr, DecidableEq

instance : Inhabited cdinfos := ⟨{}⟩

/-- Mutation through the opentrack alias: rewrite the last list element. -/
def modifyLast (f : cdtrack → cdtrack) : List cdtrack → List cdtrack
  | [] => []
  | [t] => [f t]
  | t :: ts => t :: modifyLast f ts

/-- this.opentrack?.validCheck(): an error message when the open (= last)
    track has no index numbered 1, nothing when there is no open track. -/
def validCheckLast (st : cdinfos) : Option String :=
  match st.tracks.getLast? with
  | some t => if t.indexExists 1 then none else some ("TRACK " ++ toString t.no ++ " has no INDEX")
  | none => none

/-- The TRACK branch after the FILE-defined guard and the validity check of
    the superseded track: regex, duplicate-number check, type check,
    creation of the new open track (claiming the pending file). -/
def trackCmd (st : cdinfos) (lu : List Char) : Except String cdinfos :=
  match matchTRACK lu with
  | none => .error "Line error, Bad Syntax"
  | some (d, ty) =>
    let n := parseIntD d
    if st.tracks.any (fun t => t.no == n) then
      .error ("Track " ++ (⟨d⟩ : String) ++ " is already defined")
    else if (sectorsByType (⟨ty⟩ : String)).isNone then
      .error ("Unsupported Track type " ++ (⟨ty⟩ : String))
    else
      .ok { st with
        tracks := st.tracks ++ [{ (default : cdtrack) with
          no := n
          type := (⟨ty.map upChar⟩ : String)
          file := st.openfile }]
        openfile := none }

/-- _cueParser(line): one trimmed line; throws are modelled as .error.
    Every throw in the source happens before any mutation of the object,
    so the error branches carry no state. -/
def cueParser (st : cdinfos) (line : String) : Except String cdinfos :=
  let l := line.data
  let lu := l.map upChar
  if startsKw lu "REM".data || startsKw lu ";".data then .ok st
  else if startsKw lu "TITLE".data then
    match matchKeywordArg lu with
    | none => .error "Line error, Bad Syntax"
    | some cap =>
      let v : String := ⟨stripQuotes cap⟩
      if st.tracks.isEmpty then .ok { st with CD_TITLE := v }
      else .ok { st with tracks := modifyLast (fun t => { t with title := some v }) st.tracks }
  else if startsKw lu "PERFORMER".data then
    match matchKeywordArg lu with
    | none => .error "Line error, Bad Syntax"
    | some cap =>
      let v : String := ⟨stripQuotes cap⟩
      if st.tracks.isEmpty then .ok { st with CD_ARTIST := v }
      else .ok { st with tracks := modifyLast (fun t => { t with artist := some v }) st.tracks }
  else if startsKw lu "FILE".data then
    match matchFILE l with
    | none => .error "Line error, Bad Syntax"
    | some (fname, ftype) =>
      if ¬ SUPPORTED_TRACK_FILES.contains (⟨ftype⟩ : String) then
        .error ("Unsupported TRACK File Type " ++ (⟨ftype⟩ : String))
      else
        match validCheckLast st with
        | some e => .error e
        | none => .ok { st with openfile := some (⟨fname⟩ : String) }
  else if startsKw lu "TRACK".data then
    if st.openfile = none ∧ st.tracks = [] then
      .error "A FILE has not been defined before TRACK 01"
    else
      match validCheckLast st with
      | some e => .error e
      | none => trackCmd st lu
  else if startsKw lu "INDEX".data then
    match st.tracks.getLast? with
    | none => .error "A Track is not defined yet"
    | some t =>
      match matchINDEX lu with
      | none => .error "Line error, Bad Syntax"
      | some (d, mm, ss, ff) =>
        let n := parseIntD d
        if t.indexExists n then
          .error ("Track " ++ toString t.no ++ " - Duplicate Index entry " ++ (⟨d⟩ : String))
        else
          .ok { st with tracks := modifyLast (fun tr => { tr with
            indexes := tr.indexes ++ [⟨n, parseIntD mm, parseIntD ss, parseIntD ff⟩] }) st.tracks }
  else if startsKw lu "PREGAP".data then
    match st.tracks.getLast? with
    | none => .error "A Track is not defined yet"
    | some _ =>
      match matchPREGAP lu with
      | none => .error "Line error, Bad Syntax"
      | some (mm, ss, ff) =>
        .ok { st with tracks := modifyLast (fun tr => { tr with
          pregap := some ⟨0, parseIntD mm, parseIntD ss, parseIntD ff⟩ }) st.tracks }
  else .ok st

/-! ## loadCue: parse loop and layout resolver -/

/-- The line loop of loadCue: trim, skip blank lines, parse, and wrap a
    parser throw with the 1-based line number.  A throw keeps the state
    already accumulated (the caller discards the object). -/
def parseLoop : cdinfos → Nat → List String → cdinfos × Option String
  | st, _, [] => (st, none)
  | st, n, l :: rest =>
    let line := jsTrim l
    if line.length = 0 then parseLoop st (n + 1) rest
    else
      match cueParser st line with
      | .ok st' => parseLoop st' (n + 1) rest
      | .error e =>
        (st, some ("Cue Parse Error on Line (" ++ toString (n + 1) ++ ") : " ++ e))

/-- Step 1 of one resolver iteration on track tr: either the track declares
    its own file (existence check, size lookup, disc-size accumulation, tr
    becomes the owner) or it is marked shared with the current owner's file.
    Returns the updated track, the owner, the open size and the accumulated
    disc size — or the thrown error. -/
def resolveStep1 (fs : String → Option Int) (ot : Option cdtrack) (os : Option Int)
    (acc : Int) (tr : cdtrack) : (cdtrack × cdtrack × Option Int × Int) ⊕ String :=
  match tr.file with
  | some f =>
    match fs f with
    | none => Sum.inr ("File \"" ++ f ++ "\" does not exist in .cue directory")
    | some sz => Sum.inl (tr, tr, some sz, acc + sz)
  | none =>
    match ot with
    | none => Sum.inr "TypeError: null owner"
    | some o => Sum.inl ({ tr with shared := o.file }, o, os, acc)

/-- The loop tail of the resolver, with the iteration fused so that the
    recursion is structural: cur is the track of the current iteration with
    step 1 already applied, o the current owner and os its file's size.
    The source iteration couples consecutive tracks — it writes the next
    track's byteStart while sizing the current one — so each step here
    finishes the current track, applies step 1 to the next, and recurses.
    The step order and values are exactly those of the source loop.
    The branch where the owner's type is missing from the sector table
    would yield NaN in JS; it is unreachable from parsed sheets (every
    parsed track type is a table key) and modelled as an error, as is the
    undefined-index access on a shared track without indexes (parsed
    sheets always provide INDEX 01). -/
def resolveGo (fs : String → Option Int) (cur o : cdtrack) (os : Option Int) (acc : Int) :
    List cdtrack → List cdtrack × Int × Option String
  | [] => ([{ cur with byteSize := os.getD 0 - cur.byteStart }], acc, none)
  | tr2 :: rest2 =>
    if tr2.file = none then
      match sectorsByType o.type with
      | none => (cur :: tr2 :: rest2, acc, some "NaN: owner type has no sector size")
      | some sec =>
        match tr2.indexes.head? with
        | none => (cur :: tr2 :: rest2, acc, some "TypeError: no indexes on shared track")
        | some i0 =>
          let tr2' := { tr2 with byteStart := sec * i0.toFrames }
          let cur' := { cur with byteSize := tr2'.byteStart - cur.byteStart }
          match resolveStep1 fs (some o) os acc tr2' with
          | .inr e => (cur' :: tr2' :: rest2, acc, some e)
          | .inl (c2, o2, os2, acc2) =>
            let r := resolveGo fs c2 o2 os2 acc2 rest2
            (cur' :: r.1, r.2.1, r.2.2)
    else
      let cur' := { cur with byteSize := os.getD 0 - cur.byteStart }
      match resolveStep1 fs (some o) os acc tr2 with
      | .inr e => (cur' :: tr2 :: rest2, acc, some e)
      | .inl (c2, o2, os2, acc2) =>
        let r := resolveGo fs c2 o2 os2 acc2 rest2
        (cur' :: r.1, r.2.1, r.2.2)

/-- The second pass of loadCue over the parsed tracks: determine shared
    files, check file existence, compute byte positions.  ot is the last
    track that declared a file, os that file's size.  Only ot.type and
    ot.file are ever read, and neither is mutated after parsing, so carrying
    the owner record by value is faithful to the JS aliasing.  The source
    reads os - tr.byteStart with os possibly still null, which JS coerces
    to 0 - tr.byteStart: modelled by os.getD 0 (unreachable from parsed
    sheets, whose first track always owns a file). -/
def resolveTracks (fs : String → Option Int) (ot : Option cdtrack) (os : Option Int)
    (acc : Int) : List cdtrack → List cdtrack × Int × Option String
  | [] => ([], acc, none)
  | tr :: rest =>
    match resolveStep1 fs ot os acc tr with
    | .inr e => (tr :: rest, acc, some e)
    | .inl (c, o, os1, acc1) => resolveGo fs c o os1 acc1 rest

/-- loadCue(input).  The filesystem is abstracted: fs maps a declared file
    name to its byte size (existsSync + statSync().size, with the join onto
    the sheet's directory elided), san is the external sanitizePath, lines
    are the lines read from the sheet and baseName its file name without
    extension (the CD_TITLE fallback).  The extension check and the read of
    the sheet happen before any state is touched and cannot fail for a
    readable sheet, so they are not modelled.  Returns the object state
    and, on a throw, the error. -/
def loadCue (fs : String → Option Int) (san : String → String) (baseName : String)
    (lines : List String) (st : cdinfos) : cdinfos × Option String :=
  if st.tracks.length > 0 then (st, some "Loading again unsupported. Make a new object")
  else
    match parseLoop st 0 lines with
    | (st1, some e) => (st1, some e)
    | (st1, none) =>
      if st1.tracks.length = 0 then (st1, some "No Tracks in the cue file")
      else
        match validCheckLast st1 with
        | some e => (st1, some e)
        | none =>
          let st2 := if st1.CD_TITLE = "" then { st1 with CD_TITLE := baseName } else st1
          let st3 := { st2 with CD_FILE := san st2.CD_TITLE }
          let r := resolveTracks fs none none st3.CD_SIZE st3.tracks
          ({ st3 with tracks := r.1, CD_SIZE := r.2.1 }, r.2.2)

/-! ## Name/template engine: prepareFilenames -/

def lbrace : Char := Char.ofNat 123
def rbrace : Char := Char.ofNat 125

/-- Split a list at the first closing brace (the lazy (.+?) of the tag
    pattern): content before it and remainder after it. -/
def splitAtClose : List Char → Option (List Char × List Char)
  | [] => none
  | c :: rest =>
    if c = rbrace then some ([], rest)
    else
      match splitAtClose rest with
      | some (a, b) => some (c :: a, b)
      | none => none

/-- One tag match attempt after an opening brace: the lazy (.+?) needs at
    least one character before the closing brace. -/
def tagSplit (l : List Char) : Option (List Char × List Char) :=
  match splitAtClose l with
  | some (content, rest) => if content.isEmpty then none else some (content, rest)
  | none => none

/-- The switch of the replace callback of prepareFilenames; an unknown tag
    is replaced by its own name (the default case returns B). -/
def tagValue (st : cdinfos) (tr : cdtrack) (tag : List Char) : List Char :=
  if tag = "cdt".data then st.CD_TITLE.data
  else if tag = "cda".data then st.CD_ARTIST.data
  else if tag = "tt".data then (tr.title.getD "untitled").data
  else if tag = "ta".data then (tr.artist.getD "unknown artist").data
  else if tag = "no".data then (cdtrack.noStr tr).data
  else tag

/-- template.replace(/{(.+?)}/g, ...): left-to-right scan; at an opening
    brace a tag match is attempted, otherwise the character is copied.
    The fuel argument (initialised to the list length, an upper bound on
    the number of steps) only discharges termination; it never runs out
    because every step consumes at least one character. -/
def applyTagsF (st : cdinfos) (tr : cdtrack) : Nat → List Char → List Char
  | _, [] => []
  | 0, l => l
  | fuel + 1, c :: rest =>
    if c = lbrace then
      match tagSplit rest with
      | some (tag, after) => tagValue st tr tag ++ applyTagsF st tr fuel after
      | none => c :: applyTagsF st tr fuel rest
    else c :: applyTagsF st tr fuel rest

def applyTemplate (st : cdinfos) (tr : cdtrack) (tmpl : String) : String :=
  ⟨applyTagsF st tr tmpl.data.length tmpl.data⟩

/-- The default template choice of prepareFilenames when the template
    argument is falsy. -/
def defaultTemplate (st : cdinfos) : String :=
  if (st.tracks.filter (fun t => t.title ≠ none)).length = st.tracks.length then
    if 0 < (st.tracks.filter (fun t => t.artist ≠ none)).length then
      "{no}. {ta} - {tt}"
    else
      "{no}. {tt}"
  else
    "{cdt} - Track {no}"

/-- The per-track output names: template substitution followed by the
    external sanitizePath. -/
def trackNames (san : String → String) (st : cdinfos) (tmpl : String) : List String :=
  st.tracks.map fun tr => san (applyTemplate st tr tmpl)

/-- readyFiles.filter((it, ind) => readyFiles.indexOf(it) !== ind).length > 0:
    some element's position differs from its first occurrence. -/
def dupCheck (l : List String) : Bool :=
  0 < ((List.range l.length).filter (fun i => ¬ l.indexOf (l.getD i "") = i)).length

/-- The template prepareFilenames actually uses: the default when the
    argument is falsy (absent or the empty string). -/
def chosenTemplate (st : cdinfos) (template : Option String) : String :=
  if template.getD "" = "" then defaultTemplate st else template.getD ""

/-- prepareFilenames(template): choose the default template when the
    argument is falsy (absent or empty), substitute, sanitize, and throw on
    duplicate names.  Returns the readyFiles list. -/
def prepareFilenames (san : String → String) (st : cdinfos) (template : Option String) :
    Except String (List String) :=
  let ready := trackNames san st (chosenTemplate st template)
  if dupCheck ready then .error "Template resulted in duplicate entries"
  else .ok ready

/-! ## Sheet regenerator: buildCueFileForCBAE -/

/-- The renormalized index time codes of one track: i0 is the frame count
    of tr.indexes[0] (the first listed index), and every index is re-derived
    from its own frame count minus i0. -/
def cbaeIndexEntries (tr : cdtrack) : List cuetime :=
  let i0 := (tr.indexes.headD default).toFrames
  tr.indexes.map fun iit => cuetime.fromFrames ⟨iit.no, 0, 0, 0⟩ (iit.toFrames - i0)

/-- The INDEX lines pushed for one track. -/
def cbaeIndexLines (tr : cdtrack) : List String :=
  (cbaeIndexEntries tr).map fun inew =>
    "\t\tINDEX " ++ jsPad2 (toString inew.no) ++ " " ++ inew.toStr

/-- The per-track blocks of buildCueFileForCBAE (the body of its for loop);
    i indexes readyFiles in step with the track list.  A track without
    indexes would make the source read indexes[0] of undefined (TypeError),
    modelled as an error; parsed sheets always provide INDEX 01. -/
def buildBlocks (rf : List String) (aExt : String) : Nat → List cdtrack → Except String (List String)
  | _, [] => .ok []
  | i, tr :: rest =>
    let fn := rf.getD i ""
    let fileLine :=
      if tr.isData then "\tFILE \"" ++ fn ++ ".bin\" BINARY"
      else
        let tp : String := ⟨(aExt.data.drop 1).map upChar⟩
        "\tFILE \"" ++ fn ++ aExt ++ "\" " ++ tp
    let titleLines :=
      (if tr.title.getD "" ≠ "" then ["\t\tTITLE \"" ++ tr.title.getD "" ++ "\""] else [])
        ++ (if tr.artist.getD "" ≠ "" then ["\t\tPERFORMER \"" ++ tr.artist.getD "" ++ "\""] else [])
    let trackLine := "\t\tTRACK " ++ tr.noStr ++ " " ++ tr.type
    let pregapLines :=
      match tr.pregap with
      | some p => ["\t\tPREGAP " ++ p.toStr]
      | none => []
    if tr.indexes.isEmpty then .error "TypeError: reading index 0 of empty indexes"
    else
      match buildBlocks rf aExt (i + 1) rest with
      | .error e => .error e
      | .ok ls =>
        .ok ((fileLine :: titleLines) ++ (trackLine :: pregapLines) ++ cbaeIndexLines tr ++ ls)

/-- buildCueFileForCBAE(aExt): header (disc PERFORMER when truthy, disc
    TITLE, blank line) followed by the per-track blocks.  ready models
    this.readyFiles (null triggers prepareFilenames with no template). -/
def buildCueFileForCBAE (san : String → String) (st : cdinfos)
    (ready : Option (List String)) (aExt : String) : Except String (List String) :=
  match (match ready with
         | some r => Except.ok r
         | none => prepareFilenames san st none : Except String (List String)) with
  | .error e => .error e
  | .ok rf =>
    let header :=
      (if st.CD_ARTIST ≠ "" then ["\tPERFORMER \"" ++ st.CD_ARTIST ++ "\""] else [])
        ++ ["\tTITLE \"" ++ st.CD_TITLE ++ "\"", ""]
    match buildBlocks rf aExt 0 st.tracks with
    | .error e => .error e
    | .ok blocks => .ok (header ++ blocks)

/-! ## Specification-side helper predicates (used only to state claims) -/

/-- Element access with the default track (out of range never occurs in the
    statements below). -/
def nthTrack (l : List cdtrack) (k : Nat) : cdtrack := l.getD k default

/-- The type of the owner track governing position k: the last track at or
    before k that declares its own file (seeded by the owner already open
    before the list, none at the top of the resolver). -/
def ownerTy (o : Option String) : List cdtrack → Nat → Option String
  | [], _ => o
  | t :: _, 0 => if t.file.isSome then some t.type else o
  | t :: rest, k + 1 => ownerTy (if t.file.isSome then some t.type else o) rest k

/-- Sum of the computed byte sizes. -/
def sumBytes (l : List cdtrack) : Int := (l.map cdtrack.byteSize).sum

/-- Consecutive byte ranges are contiguous. -/
def contig (l : List cdtrack) : Prop :=
  List.Chain' (fun a b => a.byteStart + a.byteSize = b.byteStart) l

/-- Byte ranges in track order are pairwise disjoint (each ends no later
    than any later one starts). -/
def disjointRanges (l : List cdtrack) : Prop :=
  ∀ j k, j < k → k < l.length →
    (nthTrack l j).byteStart + (nthTrack l j).byteSize ≤ (nthTrack l k).byteStart

/-- x lies inside the half-open byte range of the track. -/
def inRange (t : cdtrack) (x : Int) : Prop :=
  t.byteStart ≤ x ∧ x < t.byteStart + t.byteSize

/-- Every numeric field of the time stamp lies within two decimal digits
    (what the digit-only bounded-width captures actually guarantee). -/
def boundedTC (tc : cuetime) : Prop :=
  0 ≤ tc.minutes ∧ tc.minutes ≤ 99 ∧ 0 ≤ tc.seconds ∧ tc.seconds ≤ 99 ∧
    0 ≤ tc.frames ∧ tc.frames ≤ 99

end Cbae

open Cbae

/-! # Helper lemmas -/

/-- Exact round trip of the time-code conversions on non-negative frame
    counts (shared between the time-code and regeneration claims). -/
theorem fromFrames_roundTrip (t : cuetime) (f : Int) (hf : 0 ≤ f) :
    (t.fromFrames f).toFrames = f := by
  show (f.tmod 4500).fdiv 75 * 75 + f.fdiv 4500 * 60 * 75 + f.tmod 75 = f
  rw [Int.tmod_eq_emod hf (by decide), Int.tmod_eq_emod hf (by decide),
      Int.fdiv_eq_ediv _ (by decide), Int.fdiv_eq_ediv _ (by decide)]
  omega

/-- startsKw succeeds exactly on lists extending the keyword. -/
theorem startsKw_iff (l p : List Char) :
    startsKw l p = true ↔ ∃ r, l = p ++ r := by
  induction p generalizing l with
  | nil => simp [startsKw]
  | cons k ks ih =>
    cases l with
    | nil => simp [startsKw]
    | cons c cs =>
      simp only [startsKw, List.cons_append, Bool.and_eq_true, decide_eq_true_eq, ih]
      constructor
      · rintro ⟨rfl, r, rfl⟩; exact ⟨r, rfl⟩
      · rintro ⟨r, h⟩; cases h; exact ⟨rfl, r, rfl⟩

/-- The resolver never shrinks a non-empty track list to nothing. -/
theorem resolveGo_fst_ne_nil (fs : String → Option Int) (cur o : cdtrack)
    (os : Option Int) (acc : Int) (l : List cdtrack) :
    (resolveGo fs cur o os acc l).1 ≠ [] := by
  cases l with
  | nil => simp [resolveGo]
  | cons t2 r2 =>
    simp only [resolveGo]
    split <;> (try split) <;> (try split) <;> (try split) <;> simp

/-- The resolver on a non-empty list yields a non-empty list. -/
theorem resolveTracks_fst_ne_nil (fs : String → Option Int) (ot : Option cdtrack)
    (os : Option Int) (acc : Int) (tr : cdtrack) (rest : List cdtrack) :
    (resolveTracks fs ot os acc (tr :: rest)).1 ≠ [] := by
  simp only [resolveTracks]
  rcases hs : resolveStep1 fs ot os acc tr with ⟨c, o, os1, acc1⟩ | e
  · exact resolveGo_fst_ne_nil _ _ _ _ _ _
  · simp

/-- Decomposition of a successful loadCue: the instance was fresh, the parse
    loop succeeded with a non-empty track list whose last track carries
    INDEX 01, and the resolver succeeded, producing the final track list and
    disc size. -/
theorem loadCue_ok_decomp (fs : String → Option Int) (san : String → String)
    (bn : String) (lines : List String) (st st' : cdinfos)
    (h : loadCue fs san bn lines st = (st', none)) :
    st.tracks = [] ∧ ∃ st1, parseLoop st 0 lines = (st1, none) ∧ st1.tracks ≠ [] ∧
      validCheckLast st1 = none ∧
      resolveTracks fs none none st1.CD_SIZE st1.tracks = (st'.tracks, st'.CD_SIZE, none) := by
  unfold loadCue at h
  split at h
  next hpos => exact absurd (congrArg Prod.snd h) (by simp)
  next hpos =>
    have hst : st.tracks = [] := List.eq_nil_of_length_eq_zero (by omega)
    split at h
    next st1 e heq => exact absurd (congrArg Prod.snd h) (by simp)
    next st1 heq =>
      split at h
      next => exact absurd (congrArg Prod.snd h) (by simp)
      next hlen =>
        split at h
        next e heq2 => exact absurd (congrArg Prod.snd h) (by simp)
        next heq2 =>
          refine ⟨hst, st1, heq, fun hnil => hlen (by rw [hnil]; rfl), heq2, ?_⟩
          by_cases ht : st1.CD_TITLE = "" <;>
            simp only [ht, if_true, if_false] at h <;>
            (rw [Prod.mk.injEq] at h; obtain ⟨h1, h2⟩ := h; subst h1; simp [← h2])

/-- A successful loadCue leaves a non-empty track list in the object. -/
theorem loadCue_ok_tracks_ne_nil (fs : String → Option Int) (san : String → String)
    (bn : String) (lines : List String) (st st' : cdinfos)
    (h : loadCue fs san bn lines st = (st', none)) : st'.tracks ≠ [] := by
  obtain ⟨-, st1, -, hne, -, hres⟩ := loadCue_ok_decomp fs san bn lines st st' h
  match h1 : st1.tracks with
  | [] => exact absurd h1 hne
  | tr :: rest =>
    rw [h1] at hres
    have := resolveTracks_fst_ne_nil fs none none st1.CD_SIZE tr rest
    rw [hres] at this
    exact this

/-! # Claim theorems -/

/-- C3. For every non-negative frame count f, building a time code with
    fromFrames(f) and reading it back with toFrames() yields exactly f. -/
theorem c3_fromFrames_toFrames (t : Cbae.cuetime) (f : Int) (hf : 0 ≤ f) :
    (t.fromFrames f).toFrames = f :=
  fromFrames_roundTrip t f hf

/-- Witness for C3 at the concrete frame count 4567 (= 01:00:67). -/
theorem c3_fromFrames_toFrames_witness :
    (0 : Int) ≤ 4567 ∧ ((Cbae.cuetime.mk 1 0 0 0).fromFrames 4567).toFrames = 4567 :=
  ⟨by decide, c3_fromFrames_toFrames (Cbae.cuetime.mk 1 0 0 0) 4567 (by decide)⟩

/-- C10. A non-blank line whose upper-cased form starts with none of the
    recognized keywords (REM, ;, TITLE, PERFORMER, FILE, TRACK, INDEX,
    PREGAP) is silently ignored: the parser returns without an error and
    without touching any state. -/
theorem c10_unknown_line_ignored (st : cdinfos) (line : String)
    (h1 : startsKw (line.data.map upChar) "REM".data = false)
    (h2 : startsKw (line.data.map upChar) ";".data = false)
    (h3 : startsKw (line.data.map upChar) "TITLE".data = false)
    (h4 : startsKw (line.data.map upChar) "PERFORMER".data = false)
    (h5 : startsKw (line.data.map upChar) "FILE".data = false)
    (h6 : startsKw (line.data.map upChar) "TRACK".data = false)
    (h7 : startsKw (line.data.map upChar) "INDEX".data = false)
    (h8 : startsKw (line.data.map upChar) "PREGAP".data = false) :
    cueParser st line = .ok st := by
  unfold cueParser
  simp [h1, h2, h3, h4, h5, h6, h7, h8]

/-- Witness for C10: the unknown command CATALOG is ignored. -/
theorem c10_unknown_line_ignored_witness :
    cueParser {} "CATALOG 1234567890123" = .ok {} :=
  c10_unknown_line_ignored {} "CATALOG 1234567890123" (by decide) (by decide)
    (by decide) (by decide) (by decide) (by decide) (by decide) (by decide)

/-- C9. loadCue on an instance that already completed a successful load
    fails with the state-misuse error and returns the instance's state
    unchanged (the guard is the first statement of loadCue, before any
    mutation). -/
theorem c9_reload_rejected (fs fs2 : String → Option Int) (san san2 : String → String)
    (bn bn2 : String) (lines lines2 : List String) (st st' : cdinfos)
    (h : loadCue fs san bn lines st = (st', none)) :
    loadCue fs2 san2 bn2 lines2 st' =
      (st', some "Loading again unsupported. Make a new object") := by
  have hne := loadCue_ok_tracks_ne_nil fs san bn lines st st' h
  unfold loadCue
  rw [if_pos]
  exact Nat.pos_of_ne_zero (fun hz => hne (List.eq_nil_of_length_eq_zero hz))

/-- Witness for C9: a concrete successful load, then the rejected reload. -/
theorem c9_reload_rejected_witness :
    loadCue (fun n => if n = "A.BIN" then some 705600 else none) id "quake"
      ["FILE \"A.BIN\" BINARY", "TRACK 01 MODE1/2352", "INDEX 01 00:00:00"] {} =
      ((loadCue (fun n => if n = "A.BIN" then some 705600 else none) id "quake"
        ["FILE \"A.BIN\" BINARY", "TRACK 01 MODE1/2352", "INDEX 01 00:00:00"] {}).1, none) ∧
    loadCue (fun _ => none) id "other" []
      (loadCue (fun n => if n = "A.BIN" then some 705600 else none) id "quake"
        ["FILE \"A.BIN\" BINARY", "TRACK 01 MODE1/2352", "INDEX 01 00:00:00"] {}).1 =
      ((loadCue (fun n => if n = "A.BIN" then some 705600 else none) id "quake"
        ["FILE \"A.BIN\" BINARY", "TRACK 01 MODE1/2352", "INDEX 01 00:00:00"] {}).1,
        some "Loading again unsupported. Make a new object") :=
  ⟨by decide,
    c9_reload_rejected (fun n => if n = "A.BIN" then some 705600 else none)
      (fun _ => none) id id "quake" "other"
      ["FILE \"A.BIN\" BINARY", "TRACK 01 MODE1/2352", "INDEX 01 00:00:00"] [] {}
      (loadCue (fun n => if n = "A.BIN" then some 705600 else none) id "quake"
        ["FILE \"A.BIN\" BINARY", "TRACK 01 MODE1/2352", "INDEX 01 00:00:00"] {}).1
      (by decide)⟩

/-! # Matcher capture bounds -/

/-- A capture of at most two digit characters parses below 100. -/
theorem parseIntD_two_digits (l : List Char) (hd : ∀ c ∈ l, isDigitJS c = true)
    (hl : l.length ≤ 2) : 0 ≤ parseIntD l ∧ parseIntD l ≤ 99 := by
  refine ⟨Int.natCast_nonneg _, ?_⟩
  match l with
  | [] => decide
  | [a] =>
    have ha := hd a (by simp)
    simp only [isDigitJS, decide_eq_true_eq] at ha
    simp only [parseIntD, List.foldl]
    omega
  | [a, b] =>
    have ha := hd a (by simp)
    have hb := hd b (by simp)
    simp only [isDigitJS, decide_eq_true_eq] at ha hb
    simp only [parseIntD, List.foldl]
    push_cast
    omega
  | _ :: _ :: _ :: _ => simp at hl

/-- The (\d{1,2}) capture before a colon is one or two digit characters. -/
theorem matchTwoDigitsColon_spec (l d r : List Char)
    (h : matchTwoDigitsColon l = some (d, r)) :
    (∀ c ∈ d, isDigitJS c = true) ∧ d.length ≤ 2 := by
  simp only [matchTwoDigitsColon] at h
  split at h
  · exact absurd h (by simp)
  next hcond =>
    split at h
    next r2 heq =>
      rw [Option.some.injEq, Prod.mk.injEq] at h
      obtain ⟨rfl, rfl⟩ := h
      refine ⟨fun c hc => List.mem_takeWhile_imp hc, ?_⟩
      simp only [not_or, List.isEmpty_eq_true, gt_iff_lt, not_lt] at hcond
      exact hcond.2
    next => exact absurd h (by simp)

/-- The final (\d{1,2}) capture is one or two digit characters. -/
theorem matchFF_spec (l d : List Char) (h : matchFF l = some d) :
    (∀ c ∈ d, isDigitJS c = true) ∧ d.length ≤ 2 := by
  simp only [matchFF] at h
  split at h
  · exact absurd h (by simp)
  · rw [Option.some.injEq] at h
    subst h
    refine ⟨fun c hc => List.mem_takeWhile_imp (List.mem_of_mem_take hc), ?_⟩
    exact le_trans (List.length_take_le 2 _) (le_refl 2)

/-- The three time captures of the INDEX matcher are two-digit bounded. -/
theorem matchINDEX_time_spec (l d mm ss ff : List Char)
    (h : matchINDEX l = some (d, mm, ss, ff)) :
    boundedTC ⟨parseIntD d, parseIntD mm, parseIntD ss, parseIntD ff⟩ := by
  simp only [matchINDEX] at h
  split at h; · exact absurd h (by simp)
  split at h; · exact absurd h (by simp)
  split at h; · exact absurd h (by simp)
  split at h; · exact absurd h (by simp)
  split at h; · exact absurd h (by simp)
  next mm1 r5 hmm =>
  split at h; · exact absurd h (by simp)
  next ss1 r6 hss =>
  split at h; · exact absurd h (by simp)
  next ff1 hff =>
  rw [Option.some.injEq, Prod.mk.injEq, Prod.mk.injEq, Prod.mk.injEq] at h
  obtain ⟨rfl, rfl, rfl, rfl⟩ := h
  obtain ⟨hd1, hl1⟩ := matchTwoDigitsColon_spec _ _ _ hmm
  obtain ⟨hd2, hl2⟩ := matchTwoDigitsColon_spec _ _ _ hss
  obtain ⟨hd3, hl3⟩ := matchFF_spec _ _ hff
  obtain ⟨a1, b1⟩ := parseIntD_two_digits _ hd1 hl1
  obtain ⟨a2, b2⟩ := parseIntD_two_digits _ hd2 hl2
  obtain ⟨a3, b3⟩ := parseIntD_two_digits _ hd3 hl3
  exact ⟨a1, b1, a2, b2, a3, b3⟩

/-- The three time captures of one PREGAP match attempt are two-digit
    bounded. -/
theorem matchTimeAt_time_spec (l mm ss ff : List Char)
    (h : matchTimeAt l = some (mm, ss, ff)) :
    boundedTC ⟨0, parseIntD mm, parseIntD ss, parseIntD ff⟩ := by
  simp only [matchTimeAt] at h
  split at h; · exact absurd h (by simp)
  split at h; · exact absurd h (by simp)
  split at h; · exact absurd h (by simp)
  next mm1 r3 hmm =>
  split at h; · exact absurd h (by simp)
  next ss1 r4 hss =>
  split at h; · exact absurd h (by simp)
  next ff1 hff =>
  rw [Option.some.injEq, Prod.mk.injEq, Prod.mk.injEq] at h
  obtain ⟨rfl, rfl, rfl⟩ := h
  obtain ⟨hd1, hl1⟩ := matchTwoDigitsColon_spec _ _ _ hmm
  obtain ⟨hd2, hl2⟩ := matchTwoDigitsColon_spec _ _ _ hss
  obtain ⟨hd3, hl3⟩ := matchFF_spec _ _ hff
  obtain ⟨a1, b1⟩ := parseIntD_two_digits _ hd1 hl1
  obtain ⟨a2, b2⟩ := parseIntD_two_digits _ hd2 hl2
  obtain ⟨a3, b3⟩ := parseIntD_two_digits _ hd3 hl3
  exact ⟨a1, b1, a2, b2, a3, b3⟩

/-- The PREGAP captures (at whatever start position matched) are two-digit
    bounded. -/
theorem matchPREGAP_time_spec (l mm ss ff : List Char)
    (h : matchPREGAP l = some (mm, ss, ff)) :
    boundedTC ⟨0, parseIntD mm, parseIntD ss, parseIntD ff⟩ := by
  induction l with
  | nil => exact absurd h (by simp [matchPREGAP])
  | cons c rest ih =>
    rw [matchPREGAP] at h
    split at h
    next r heq =>
      rw [Option.some.injEq] at h
      subst h
      exact matchTimeAt_time_spec _ _ _ _ heq
    next => exact ih h

/-! # Parser step case analysis -/

/-- Membership after mutating the open (= last) track. -/
theorem mem_modifyLast (f : cdtrack → cdtrack) (l : List cdtrack) (x : cdtrack)
    (h : x ∈ modifyLast f l) : x ∈ l ∨ ∃ y, y ∈ l ∧ x = f y := by
  induction l with
  | nil => simp [modifyLast] at h
  | cons t ts ih =>
    cases ts with
    | nil =>
      simp only [modifyLast, List.mem_singleton] at h
      exact Or.inr ⟨t, by simp, h⟩
    | cons t2 ts2 =>
      simp only [modifyLast] at h
      rcases List.mem_cons.mp h with rfl | h2
      · exact Or.inl (by simp)
      · rcases ih h2 with h3 | ⟨y, hy, rfl⟩
        · exact Or.inl (List.mem_cons_of_mem _ h3)
        · exact Or.inr ⟨y, List.mem_cons_of_mem _ hy, rfl⟩

/-- A successful TRACK command appends exactly one fresh track (no indexes,
    no pregap, byte fields zero). -/
theorem trackCmd_ok (st : cdinfos) (lu : List Char) (st' : cdinfos)
    (h : trackCmd st lu = .ok st') :
    ∃ tr : cdtrack, tr.indexes = [] ∧ tr.pregap = none ∧ tr.byteStart = 0 ∧
      st'.tracks = st.tracks ++ [tr] := by
  simp only [trackCmd] at h
  split at h
  · exact absurd h (by simp)
  split at h
  · exact absurd h (by simp)
  split at h
  · exact absurd h (by simp)
  rw [Except.ok.injEq] at h
  subst h
  exact ⟨_, rfl, rfl, rfl, rfl⟩

/-- Everything one accepted line can do to the track list: leave it alone,
    set the open track's title or artist, append a fresh track, append an
    index built from the INDEX captures, or set a pregap built from the
    PREGAP captures. -/
theorem cueParser_tracks (st : cdinfos) (line : String) (st' : cdinfos)
    (hok : cueParser st line = .ok st') :
    st'.tracks = st.tracks
  ∨ (∃ v, st'.tracks = modifyLast (fun t => { t with title := some v }) st.tracks)
  ∨ (∃ v, st'.tracks = modifyLast (fun t => { t with artist := some v }) st.tracks)
  ∨ (∃ tr : cdtrack, tr.indexes = [] ∧ tr.pregap = none ∧ tr.byteStart = 0 ∧
       st'.tracks = st.tracks ++ [tr])
  ∨ (∃ d mm ss ff, matchINDEX (line.data.map upChar) = some (d, mm, ss, ff) ∧
       st'.tracks = modifyLast (fun tr => { tr with
         indexes := tr.indexes ++
           [⟨parseIntD d, parseIntD mm, parseIntD ss, parseIntD ff⟩] }) st.tracks)
  ∨ (∃ mm ss ff, matchPREGAP (line.data.map upChar) = some (mm, ss, ff) ∧
       st'.tracks = modifyLast (fun tr => { tr with
         pregap := some ⟨0, parseIntD mm, parseIntD ss, parseIntD ff⟩ }) st.tracks) := by
  simp only [cueParser] at hok
  split at hok
  · rw [Except.ok.injEq] at hok; subst hok; exact Or.inl rfl
  split at hok
  · -- TITLE
    split at hok
    · exact absurd hok (by simp)
    split at hok
    · rw [Except.ok.injEq] at hok; subst hok; exact Or.inl rfl
    · rw [Except.ok.injEq] at hok; subst hok
      exact Or.inr (Or.inl ⟨_, rfl⟩)
  split at hok
  · -- PERFORMER
    split at hok
    · exact absurd hok (by simp)
    split at hok
    · rw [Except.ok.injEq] at hok; subst hok; exact Or.inl rfl
    · rw [Except.ok.injEq] at hok; subst hok
      exact Or.inr (Or.inr (Or.inl ⟨_, rfl⟩))
  split at hok
  · -- FILE
    split at hok
    · exact absurd hok (by simp)
    split at hok
    · exact absurd hok (by simp)
    split at hok
    · exact absurd hok (by simp)
    · rw [Except.ok.injEq] at hok; subst hok; exact Or.inl rfl
  split at hok
  · -- TRACK
    split at hok
    · exact absurd hok (by simp)
    split at hok
    · exact absurd hok (by simp)
    · exact Or.inr (Or.inr (Or.inr (Or.inl (trackCmd_ok _ _ _ hok))))
  split at hok
  · -- INDEX
    split at hok
    · exact absurd hok (by simp)
    split at hok
    · exact absurd hok (by simp)
    next d mm ss ff heq =>
      split at hok
      · exact absurd hok (by simp)
      · rw [Except.ok.injEq] at hok; subst hok
        exact Or.inr (Or.inr (Or.inr (Or.inr (Or.inl ⟨d, mm, ss, ff, heq, rfl⟩))))
  split at hok
  · -- PREGAP
    split at hok
    · exact absurd hok (by simp)
    split at hok
    · exact absurd hok (by simp)
    next mm ss ff heq =>
      rw [Except.ok.injEq] at hok; subst hok
      exact Or.inr (Or.inr (Or.inr (Or.inr (Or.inr ⟨mm, ss, ff, heq, rfl⟩))))
  · rw [Except.ok.injEq] at hok; subst hok; exact Or.inl rfl

/-- C7 counterexample.  The INDEX regex only bounds each time field to two
    digits, so the parser accepts INDEX 01 00:99:99 and constructs a
    TimeCode with seconds = 99 (not < 60) and frames = 99 (not < 75) —
    the line is not rejected before construction. -/
theorem c7_counterexample :
    (cueParser { tracks := [{ no := 1 }] } "INDEX 01 00:99:99").toOption =
      some { tracks :=
        [{ no := 1, indexes := [{ no := 1, minutes := 0, seconds := 99, frames := 99 }] }] } ∧
    ¬((99 : Int) < 60) ∧ ¬((99 : Int) < 75) := by decide

/-- C7 amended.  Every TimeCode the parser constructs from an accepted
    INDEX or PREGAP line has its minutes, seconds and frames fields between
    0 and 99 (the bound actually enforced by the digit-only captures of
    width at most two); the seconds < 60 / frames < 75 invariants are not
    enforced.  Stated as preservation: if every time stamp stored in the
    state is two-digit bounded, the same holds after any accepted line. -/
theorem c7_amended (st : cdinfos) (line : String) (st' : cdinfos)
    (hok : cueParser st line = .ok st')
    (hinv : ∀ t ∈ st.tracks, (∀ tc ∈ t.indexes, boundedTC tc) ∧
      (∀ p, t.pregap = some p → boundedTC p)) :
    ∀ t ∈ st'.tracks, (∀ tc ∈ t.indexes, boundedTC tc) ∧
      (∀ p, t.pregap = some p → boundedTC p) := by
  intro t ht
  rcases cueParser_tracks st line st' hok with
    h | ⟨v, h⟩ | ⟨v, h⟩ | ⟨tr, hi, hp, _, h⟩ | ⟨d, mm, ss, ff, hm, h⟩ | ⟨mm, ss, ff, hm, h⟩
  · rw [h] at ht; exact hinv t ht
  · rw [h] at ht
    rcases mem_modifyLast _ _ _ ht with h2 | ⟨y, hy, rfl⟩
    · exact hinv t h2
    · exact ⟨fun tc htc => (hinv y hy).1 tc htc, fun p hp => (hinv y hy).2 p hp⟩
  · rw [h] at ht
    rcases mem_modifyLast _ _ _ ht with h2 | ⟨y, hy, rfl⟩
    · exact hinv t h2
    · exact ⟨fun tc htc => (hinv y hy).1 tc htc, fun p hp => (hinv y hy).2 p hp⟩
  · rw [h] at ht
    rcases List.mem_append.mp ht with h2 | h2
    · exact hinv t h2
    · rw [List.mem_singleton] at h2
      subst h2
      exact ⟨fun tc htc => absurd (hi ▸ htc) (List.not_mem_nil tc),
        fun p hp2 => absurd (hp ▸ hp2) (by simp)⟩
  · rw [h] at ht
    rcases mem_modifyLast _ _ _ ht with h2 | ⟨y, hy, rfl⟩
    · exact hinv t h2
    · refine ⟨fun tc htc => ?_, fun p hp => (hinv y hy).2 p hp⟩
      rcases List.mem_append.mp htc with h3 | h3
      · exact (hinv y hy).1 tc h3
      · rw [List.mem_singleton] at h3
        subst h3
        exact matchINDEX_time_spec _ _ _ _ _ hm
  · rw [h] at ht
    rcases mem_modifyLast _ _ _ ht with h2 | ⟨y, hy, rfl⟩
    · exact hinv t h2
    · refine ⟨fun tc htc => (hinv y hy).1 tc htc, fun p hp => ?_⟩
      rw [Option.some.injEq] at hp
      subst hp
      exact matchPREGAP_time_spec _ _ _ _ hm

/-- Witness for C7 amended: INDEX 01 00:34:56 on a one-track state produces
    a two-digit-bounded time stamp. -/
theorem c7_amended_witness :
    boundedTC { no := 1, minutes := 0, seconds := 34, frames := 56 } :=
  ((c7_amended { tracks := [{ no := 1 }] } "INDEX 01 00:34:56"
      { tracks :=
        [{ no := 1, indexes := [{ no := 1, minutes := 0, seconds := 34, frames := 56 }] }] }
      (by rfl)
      (by
        intro t ht
        simp only [List.mem_singleton] at ht
        subst ht
        exact ⟨fun tc htc => absurd htc (List.not_mem_nil tc), fun p hp => by simp at hp⟩))
    { no := 1, indexes := [{ no := 1, minutes := 0, seconds := 34, frames := 56 }] }
    (by decide)).1
    { no := 1, minutes := 0, seconds := 34, frames := 56 } (by decide)

/-! # Quoted-string handling -/

/-- findSome? when at most one element can produce a value. -/
theorem findSome?_eq_some_of_unique {α β : Type} (l : List α) (f : α → Option β)
    (k : α) (b : β) (hk : k ∈ l) (hfk : f k = some b)
    (huniq : ∀ j ∈ l, f j = none ∨ j = k) : l.findSome? f = some b := by
  induction l with
  | nil => simp at hk
  | cons a rest ih =>
    rw [List.findSome?_cons]
    cases hfa : f a with
    | some y =>
      rcases huniq a (by simp) with h | rfl
      · rw [h] at hfa; exact absurd hfa (by simp)
      · rw [hfk] at hfa; exact hfa.symm
    | none =>
      rcases List.mem_cons.mp hk with rfl | hk2
      · rw [hfk] at hfa; exact absurd hfa (by simp)
      · exact ih hk2 fun j hj => huniq j (List.mem_cons_of_mem _ hj)

/-- The FILE quote scan on a canonical quoted name: when the name holds no
    quote, the only usable closing quote is the appended one, so the whole
    name is captured verbatim and the type token follows. -/
theorem fileQuoteSplit_canonical (nm : List Char) (hne : nm ≠ [])
    (hq : ∀ c ∈ nm, c ≠ '"') :
    fileQuoteSplit (nm ++ '"' :: ' ' :: "BINARY".data) = some (nm, "BINARY".data) := by
  unfold fileQuoteSplit
  have hlen : (nm ++ '"' :: ' ' :: "BINARY".data).length = nm.length + 8 := by
    simp [List.length_append]
  have h1 : 1 ≤ nm.length := by
    cases nm with
    | nil => exact absurd rfl hne
    | cons a l => simp
  refine findSome?_eq_some_of_unique _ _ nm.length (nm, "BINARY".data) ?_ ?_ ?_
  · rw [List.mem_reverse, List.mem_range, hlen]; omega
  · have hget : (nm ++ '"' :: ' ' :: "BINARY".data).getD nm.length 'x' = '"' := by
      rw [List.getD_eq_getElem?_getD, List.getElem?_append_right (le_refl _)]
      simp
    rw [hget, if_pos ⟨rfl, h1⟩]
    have hdrop : (nm ++ '"' :: ' ' :: "BINARY".data).drop (nm.length + 1) =
        ' ' :: "BINARY".data := by
      rw [show nm.length + 1 = (nm ++ ['"']).length by simp,
          show nm ++ '"' :: ' ' :: "BINARY".data = (nm ++ ['"']) ++ ' ' :: "BINARY".data by simp,
          List.drop_left]
    rw [hdrop]
    have hsp : matchSpRest (' ' :: "BINARY".data) = some "BINARY".data := by decide
    rw [hsp, List.take_left' rfl]
  · intro j hj
    rw [List.mem_reverse, List.mem_range, hlen] at hj
    by_cases hjk : j = nm.length
    · exact Or.inr hjk
    refine Or.inl ?_
    rcases Nat.lt_or_ge j nm.length with hlt | hge
    · have hthis : (nm ++ '"' :: ' ' :: "BINARY".data).getD j 'x' = nm.getD j 'x' := by
        rw [List.getD_eq_getElem?_getD, List.getD_eq_getElem?_getD,
            List.getElem?_append_left hlt]
      rw [hthis, if_neg]
      rintro ⟨hc, -⟩
      have hmem : nm.getD j 'x' ∈ nm := by
        rw [List.getD_eq_getElem?_getD]
        cases hg : nm[j]? with
        | none => rw [List.getElem?_eq_none_iff] at hg; omega
        | some c => simpa using List.getElem?_mem hg
      exact hq _ hmem hc
    · obtain ⟨m2, hm2⟩ : ∃ m2, j - nm.length = m2 + 1 := ⟨j - nm.length - 1, by omega⟩
      have hthis : (nm ++ '"' :: ' ' :: "BINARY".data).getD j 'x' =
          (' ' :: "BINARY".data).getD m2 'x' := by
        rw [List.getD_eq_getElem?_getD, List.getElem?_append_right hge, hm2,
            List.getElem?_cons_succ, ← List.getD_eq_getElem?_getD]
      rw [hthis, if_neg]
      rintro ⟨hc, -⟩
      have hall : ∀ c ∈ (' ' :: "BINARY".data), c ≠ '"' := by decide
      have hmem : (' ' :: "BINARY".data).getD m2 'x' = 'x' ∨
          (' ' :: "BINARY".data).getD m2 'x' ∈ (' ' :: "BINARY".data) := by
        rw [List.getD_eq_getElem?_getD]
        cases hg : (' ' :: "BINARY".data)[m2]? with
        | none => exact Or.inl rfl
        | some c => exact Or.inr (by simpa using List.getElem?_mem hg)
      rcases hmem with he | he
      · rw [he] at hc; exact absurd hc (by decide)
      · exact hall _ he hc

/-- stripQuotes on a capture wrapped in quotes whose closing quote is the
    last character returns the wrapped text. -/
theorem stripQuotes_wrapped (m : List Char) : stripQuotes ('"' :: (m ++ ['"'])) = m := by
  have hcont : (m ++ ['"']).contains '"' = true := by
    rw [List.contains_eq_any_beq, List.any_eq_true]
    exact ⟨'"', by simp, by simp⟩
  have hrev : (m ++ ['"']).reverse = '"' :: m.reverse := by
    rw [List.reverse_append]; rfl
  show (if (m ++ ['"']).contains '"' = true then _ else _) = m
  rw [if_pos hcont, hrev]
  show ((('"' :: m.reverse).dropWhile fun c => c ≠ '"').drop 1).reverse ++
      ((('"' :: m.reverse).takeWhile fun c => c ≠ '"')).reverse = m
  have hdw : ('"' :: m.reverse).dropWhile (fun c => decide (c ≠ '"')) = '"' :: m.reverse := rfl
  have htw : ('"' :: m.reverse).takeWhile (fun c => decide (c ≠ '"')) = [] := rfl
  rw [hdw, htw]
  simp

/-- C6 counterexample.  The TITLE capture is taken from the upper-cased
    copy of the line, so TITLE "abc" stores "ABC": the stored string is not
    the text between the quotes of the original line. -/
theorem c6_counterexample :
    (cueParser {} "TITLE \"abc\"").toOption = some { CD_TITLE := "ABC" } ∧
    ("ABC" : String) ≠ "abc" := by decide

/-- C6 amended.  Only the FILE name preserves the original letter case: the
    parser captures TITLE and PERFORMER arguments from the upper-cased copy
    of the line, so the stored title / performer -- the disc field when no
    track is open, the open track field otherwise -- is the UPPER-CASED
    text between the quotes, while the FILE branch runs its regex on the
    original line and stores the declared file name character for
    character. -/
theorem c6_amended :
    (∀ (st : cdinfos) (t : String),
      cueParser st ("TITLE \"" ++ t ++ "\"") =
        (if st.tracks.isEmpty then .ok { st with CD_TITLE := jsUpper t }
          else .ok { st with tracks :=
                               modifyLast
                                 (fun tr => { tr with title := some (jsUpper t) })
                                 st.tracks }))
  ∧ (∀ (st : cdinfos) (t : String),
      cueParser st ("PERFORMER \"" ++ t ++ "\"") =
        (if st.tracks.isEmpty then .ok { st with CD_ARTIST := jsUpper t }
          else .ok { st with tracks :=
                               modifyLast
                                 (fun tr => { tr with artist := some (jsUpper t) })
                                 st.tracks }))
  ∧ (∀ (st : cdinfos) (name : String), name ≠ "" → (∀ c ∈ name.data, c ≠ '"') →
      validCheckLast st = none →
      cueParser st ("FILE \"" ++ name ++ "\" BINARY") =
        .ok { st with openfile := some name }) := by
  refine ⟨?_, ?_, ?_⟩
  · intro st t
    have hmap : List.map upChar (t.data ++ ['"']) = t.data.map upChar ++ ['"'] := by
      rw [List.map_append]; rfl
    have hs : (⟨stripQuotes ('"' :: List.map upChar (t.data ++ ['"']))⟩ : String) =
        jsUpper t := by
      rw [hmap, stripQuotes_wrapped]
      rfl
    rw [← hs]
    rfl
  · intro st t
    have hmap : List.map upChar (t.data ++ ['"']) = t.data.map upChar ++ ['"'] := by
      rw [List.map_append]; rfl
    have hs : (⟨stripQuotes ('"' :: List.map upChar (t.data ++ ['"']))⟩ : String) =
        jsUpper t := by
      rw [hmap, stripQuotes_wrapped]
      rfl
    rw [← hs]
    rfl
  · intro st name hne hq hvc
    have hne' : name.data ≠ [] := by
      intro h
      apply hne
      cases name with
      | mk d => simp only at h; rw [h]
    have hm : matchFILE (("FILE \"" ++ name ++ "\" BINARY").data) =
        some (name.data, "BINARY".data) := by
      have e2 : matchFILE (("FILE \"" ++ name ++ "\" BINARY").data) =
          fileQuoteSplit (name.data ++ '"' :: ' ' :: "BINARY".data) := rfl
      rw [e2, fileQuoteSplit_canonical name.data hne' hq]
    have s1 : startsKw ((("FILE \"" ++ name ++ "\" BINARY").data).map upChar)
        "REM".data = false := rfl
    have s2 : startsKw ((("FILE \"" ++ name ++ "\" BINARY").data).map upChar)
        ";".data = false := rfl
    have s3 : startsKw ((("FILE \"" ++ name ++ "\" BINARY").data).map upChar)
        "TITLE".data = false := rfl
    have s4 : startsKw ((("FILE \"" ++ name ++ "\" BINARY").data).map upChar)
        "PERFORMER".data = false := rfl
    have s5 : startsKw ((("FILE \"" ++ name ++ "\" BINARY").data).map upChar)
        "FILE".data = true := rfl
    simp only [cueParser, s1, s2, s3, s4, s5, Bool.or_self, Bool.false_eq_true,
      if_false, if_true, hm]
    rw [if_neg (by decide)]
    rw [hvc]

/-- Witness for C6 amended: a mixed-case disc title and a track title /
    performer are stored upper-cased, a mixed-case file name verbatim. -/
theorem c6_amended_witness :
    cueParser {} ("TITLE \"" ++ "Quake Dos (1996)" ++ "\"") =
      .ok { CD_TITLE := jsUpper "Quake Dos (1996)" } ∧
    cueParser { tracks := [{ no := 1 }] } ("TITLE \"" ++ "Intro Song" ++ "\"") =
      .ok { tracks := [{ no := 1, title := some (jsUpper "Intro Song") }] } ∧
    cueParser { tracks := [{ no := 1 }] } ("PERFORMER \"" ++ "Some Artist" ++ "\"") =
      .ok { tracks := [{ no := 1, artist := some (jsUpper "Some Artist") }] } ∧
    cueParser {} ("FILE \"" ++ "My Game.bin" ++ "\" BINARY") =
      .ok { openfile := some "My Game.bin" } :=
  ⟨c6_amended.1 {} "Quake Dos (1996)",
   c6_amended.1 { tracks := [{ no := 1 }] } "Intro Song",
   c6_amended.2.1 { tracks := [{ no := 1 }] } "Some Artist",
   c6_amended.2.2 {} "My Game.bin" (by decide) (by decide) rfl⟩

/-! # Regeneration -/

/-- Every INDEX line of a listed track appears in the block list built for
    the tracks. -/
theorem buildBlocks_indexLines_mem (rf : List String) (aExt : String) :
    ∀ (i : Nat) (ts : List cdtrack) (ls : List String),
      buildBlocks rf aExt i ts = .ok ls →
      ∀ tr ∈ ts, ∀ s ∈ cbaeIndexLines tr, s ∈ ls := by
  intro i ts
  induction ts generalizing i with
  | nil => intro ls h tr htr; simp at htr
  | cons t rest ih =>
    intro ls h tr htr s hs
    simp only [buildBlocks] at h
    split at h
    · exact absurd h (by simp)
    · split at h
      · exact absurd h (by simp)
      next ls2 heq =>
        rw [Except.ok.injEq] at h
        subst h
        rcases List.mem_cons.mp htr with rfl | htr2
        · simp only [List.append_assoc, List.mem_append]
          exact Or.inr (Or.inr (Or.inl hs))
        · simp only [List.append_assoc, List.mem_append]
          exact Or.inr (Or.inr (Or.inr (ih (i + 1) ls2 heq tr htr2 s hs)))

/-- C5 amended.  In the regenerated sheet every index of a track is
    renormalized against the track's FIRST LISTED index (indexes[0]) — not
    against its index numbered 1: each emitted entry keeps the index number
    and, whenever the difference is non-negative, its frame count is
    exactly the original frame count minus the frame count of indexes[0]
    (for tracks whose first listed index is INDEX 01, e.g. without an
    INDEX 00 line, this coincides with the claim).  Every produced INDEX
    line of every listed track appears in the buildCueFileForCBAE
    output. -/
theorem c5_amended :
    (∀ (tr : cdtrack) (k : Nat), k < tr.indexes.length →
      ((cbaeIndexEntries tr).getD k default).no = (tr.indexes.getD k default).no ∧
      ((tr.indexes.headD default).toFrames ≤ (tr.indexes.getD k default).toFrames →
        ((cbaeIndexEntries tr).getD k default).toFrames =
          (tr.indexes.getD k default).toFrames - (tr.indexes.headD default).toFrames))
  ∧ (∀ (san : String → String) (st : cdinfos) (ready : Option (List String))
      (aExt : String) (lines : List String),
      buildCueFileForCBAE san st ready aExt = .ok lines →
      ∀ tr ∈ st.tracks, ∀ s ∈ cbaeIndexLines tr, s ∈ lines) := by
  constructor
  · intro tr k hk
    simp only [cbaeIndexEntries, List.getD_eq_getElem?_getD, List.getElem?_map,
      List.getElem?_eq_getElem hk, Option.map_some', Option.getD_some]
    constructor
    · rfl
    · intro hle
      exact fromFrames_roundTrip _ _ (by omega)
  · intro san st ready aExt lines h tr htr s hs
    simp only [buildCueFileForCBAE] at h
    split at h
    · exact absurd h (by simp)
    next rf heq =>
      split at h
      · exact absurd h (by simp)
      next blocks heq2 =>
        rw [Except.ok.injEq] at h
        subst h
        exact List.mem_append.mpr
          (Or.inr (buildBlocks_indexLines_mem rf aExt 0 st.tracks blocks heq2 tr htr s hs))

/-- C5 counterexample.  For a track with INDEX 00 at frame 140 and INDEX 01
    at frame 150, the regenerated INDEX 00 line is 00:00:00 (zero point =
    indexes[0]), whereas subtracting the track's INDEX 01 frame count (the
    claim) would give -10 frames, rendering as -1:-1:-10. -/
theorem c5_counterexample :
    (buildCueFileForCBAE id { CD_TITLE := "Q", tracks := [{ no := 2, type := "AUDIO", indexes := [{ no := 0, minutes := 0, seconds := 1, frames := 65 }, { no := 1, minutes := 0, seconds := 2, frames := 0 }] }] } (some ["T1"]) ".ogg").toOption =
      some ["\tTITLE \"Q\"", "", "\tFILE \"T1.ogg\" OGG", "\t\tTRACK 02 AUDIO",
        "\t\tINDEX 00 00:00:00", "\t\tINDEX 01 00:00:10"] ∧
    (cuetime.mk 0 0 1 65).toFrames - (cuetime.mk 1 0 2 0).toFrames = -10 ∧
    (cuetime.fromFrames ⟨0, 0, 0, 0⟩ (-10)).toStr = "-1:-1:-10" ∧
    ("\t\tINDEX 00 00:00:00" : String) ≠ "\t\tINDEX 00 -1:-1:-10" := by decide

/-- Witness for C5 amended: for the INDEX 00/INDEX 01 track, the second
    emitted entry carries frame count 150 - 140 = 10, and its INDEX line
    appears in the generated sheet. -/
theorem c5_amended_witness :
    ((cbaeIndexEntries { no := 2, type := "AUDIO", indexes := [{ no := 0, minutes := 0, seconds := 1, frames := 65 }, { no := 1, minutes := 0, seconds := 2, frames := 0 }] }).getD 1 default).toFrames = 10 ∧
    ("\t\tINDEX 01 00:00:10" : String) ∈ ["\tTITLE \"Q\"", "", "\tFILE \"T1.ogg\" OGG", "\t\tTRACK 02 AUDIO", "\t\tINDEX 00 00:00:00", "\t\tINDEX 01 00:00:10"] :=
  ⟨((c5_amended.1 { no := 2, type := "AUDIO", indexes := [{ no := 0, minutes := 0, seconds := 1, frames := 65 }, { no := 1, minutes := 0, seconds := 2, frames := 0 }] } 1 (by decide)).2 (by decide)).trans (by decide),
    c5_amended.2 id { CD_TITLE := "Q", tracks := [{ no := 2, type := "AUDIO", indexes := [{ no := 0, minutes := 0, seconds := 1, frames := 65 }, { no := 1, minutes := 0, seconds := 2, frames := 0 }] }] } (some ["T1"]) ".ogg"
      ["\tTITLE \"Q\"", "", "\tFILE \"T1.ogg\" OGG", "\t\tTRACK 02 AUDIO", "\t\tINDEX 00 00:00:00", "\t\tINDEX 01 00:00:10"]
      (by rfl)
      { no := 2, type := "AUDIO", indexes := [{ no := 0, minutes := 0, seconds := 1, frames := 65 }, { no := 1, minutes := 0, seconds := 2, frames := 0 }] }
      (by decide) "\t\tINDEX 01 00:00:10" (by decide)⟩

/-! # Template engine -/

/-- Expansion of the all-titles-with-artist default template. -/
theorem applyTemplate_noTaTt (st : cdinfos) (tr : cdtrack) :
    applyTemplate st tr "{no}. {ta} - {tt}" =
      cdtrack.noStr tr ++ ". " ++ tr.artist.getD "unknown artist" ++ " - " ++
        tr.title.getD "untitled" := by
  have e : applyTagsF st tr ("{no}. {ta} - {tt}".data.length) "{no}. {ta} - {tt}".data =
      (cdtrack.noStr tr).data ++ ('.' :: ' ' :: ((tr.artist.getD "unknown artist").data ++
        (' ' :: '-' :: ' ' :: ((tr.title.getD "untitled").data ++ [])))) := rfl
  show String.mk (applyTagsF st tr ("{no}. {ta} - {tt}".data.length) "{no}. {ta} - {tt}".data)
      = _
  rw [e]
  show String.mk _ = String.mk ((((cdtrack.noStr tr).data ++ ". ".data)
      ++ (tr.artist.getD "unknown artist").data ++ " - ".data)
      ++ (tr.title.getD "untitled").data)
  apply congrArg
  simp [List.append_assoc, show ". ".data = ['.', ' '] from rfl,
    show " - ".data = [' ', '-', ' '] from rfl]

/-- Expansion of the incomplete-titles default template. -/
theorem applyTemplate_cdtTrack (st : cdinfos) (tr : cdtrack) :
    applyTemplate st tr "{cdt} - Track {no}" =
      st.CD_TITLE ++ " - Track " ++ cdtrack.noStr tr := by
  have e : applyTagsF st tr ("{cdt} - Track {no}".data.length) "{cdt} - Track {no}".data =
      st.CD_TITLE.data ++ (' ' :: '-' :: ' ' :: 'T' :: 'r' :: 'a' :: 'c' :: 'k' :: ' ' ::
        ((cdtrack.noStr tr).data ++ [])) := rfl
  show String.mk (applyTagsF st tr ("{cdt} - Track {no}".data.length) "{cdt} - Track {no}".data)
      = _
  rw [e]
  show String.mk _ = String.mk ((st.CD_TITLE.data ++ " - Track ".data)
      ++ (cdtrack.noStr tr).data)
  apply congrArg
  simp [List.append_assoc, show " - Track ".data = [' ', '-', ' ', 'T', 'r', 'a', 'c', 'k', ' '] from rfl]

/-- The first occurrence index never exceeds a known position. -/
theorem indexOf_le_of_getD : ∀ (l : List String) (i : Nat) (x : String),
    i < l.length → l.getD i "" = x → l.indexOf x ≤ i
  | [], i, x, hi, _ => by simp at hi
  | a :: t, 0, x, _, hx => by
    simp only [List.getD_cons_zero] at hx
    subst hx
    simp [List.indexOf_cons_self]
  | a :: t, i + 1, x, hi, hx => by
    simp only [List.getD_cons_succ] at hx
    by_cases hax : a = x
    · subst hax; simp [List.indexOf_cons_self]
    · rw [List.indexOf_cons_ne _ hax]
      exact Nat.succ_le_succ (indexOf_le_of_getD t i x (by simpa using hi) hx)

/-- Two equal entries at distinct positions make the duplicate check of
    prepareFilenames fire. -/
theorem dupCheck_of_eq (l : List String) (i j : Nat) (hij : i < j) (hj : j < l.length)
    (he : l.getD i "" = l.getD j "") : dupCheck l = true := by
  unfold dupCheck
  rw [decide_eq_true_eq]
  have hidx : l.indexOf (l.getD j "") ≤ i :=
    indexOf_le_of_getD l i (l.getD j "") (lt_trans hij hj) he
  have hjmem : j ∈ (List.range l.length).filter
      (fun i => ¬ l.indexOf (l.getD i "") = i) := by
    rw [List.mem_filter]
    exact ⟨List.mem_range.mpr hj, by rw [decide_eq_true_eq]; omega⟩
  exact List.length_pos_of_mem hjmem

/-- C8.  With no template supplied: when every track has a title and some
    track has a performer, the names take the "{no}. {performer} - {title}"
    shape; when some track lacks a title, they take the
    "{discTitle} - Track {no}" shape (in both cases up to the duplicate
    check, which is performed after substitution); and whenever two
    sanitized resulting names at distinct positions are equal, the engine
    throws the duplicate-entries error. -/
theorem c8_default_templates :
    (∀ (san : String → String) (st : cdinfos),
      (∀ t ∈ st.tracks, t.title ≠ none) →
      (∃ t ∈ st.tracks, t.artist ≠ none) →
      prepareFilenames san st none = .error "Template resulted in duplicate entries" ∨
      prepareFilenames san st none = .ok (st.tracks.map fun tr =>
        san (cdtrack.noStr tr ++ ". " ++ tr.artist.getD "unknown artist" ++ " - " ++
          tr.title.getD "untitled")))
  ∧ (∀ (san : String → String) (st : cdinfos),
      (∃ t ∈ st.tracks, t.title = none) →
      prepareFilenames san st none = .error "Template resulted in duplicate entries" ∨
      prepareFilenames san st none = .ok (st.tracks.map fun tr =>
        san (st.CD_TITLE ++ " - Track " ++ cdtrack.noStr tr)))
  ∧ (∀ (san : String → String) (st : cdinfos) (template : Option String) (i j : Nat),
      i < j → j < st.tracks.length →
      (trackNames san st (chosenTemplate st template)).getD i "" =
        (trackNames san st (chosenTemplate st template)).getD j "" →
      prepareFilenames san st template = .error "Template resulted in duplicate entries") := by
  refine ⟨?_, ?_, ?_⟩
  · intro san st hall hart
    have ht : chosenTemplate st none = "{no}. {ta} - {tt}" := by
      unfold chosenTemplate defaultTemplate
      rw [if_pos (show (none : Option String).getD "" = "" from rfl), if_pos, if_pos]
      · obtain ⟨t, htm, hta⟩ := hart
        exact List.length_pos_of_mem (List.mem_filter.mpr ⟨htm, by simp [hta]⟩)
      · rw [List.filter_length_eq_length]
        intro a ha; simp [hall a ha]
    have hnames : trackNames san st "{no}. {ta} - {tt}" = st.tracks.map (fun tr =>
        san (cdtrack.noStr tr ++ ". " ++ tr.artist.getD "unknown artist" ++ " - " ++
          tr.title.getD "untitled")) := by
      unfold trackNames
      exact List.map_congr_left fun tr _ => congrArg san (applyTemplate_noTaTt st tr)
    unfold prepareFilenames
    rw [ht, hnames]
    by_cases hd : dupCheck (st.tracks.map fun tr =>
        san (cdtrack.noStr tr ++ ". " ++ tr.artist.getD "unknown artist" ++ " - " ++
          tr.title.getD "untitled"))
    · rw [if_pos hd]; exact Or.inl rfl
    · rw [if_neg hd]; exact Or.inr rfl
  · intro san st hsome
    have ht : chosenTemplate st none = "{cdt} - Track {no}" := by
      unfold chosenTemplate defaultTemplate
      rw [if_pos (show (none : Option String).getD "" = "" from rfl), if_neg]
      intro hlen
      rw [List.filter_length_eq_length] at hlen
      obtain ⟨t, htm, hteq⟩ := hsome
      have := hlen t htm
      simp [hteq] at this
    have hnames : trackNames san st "{cdt} - Track {no}" = st.tracks.map (fun tr =>
        san (st.CD_TITLE ++ " - Track " ++ cdtrack.noStr tr)) := by
      unfold trackNames
      exact List.map_congr_left fun tr _ => congrArg san (applyTemplate_cdtTrack st tr)
    unfold prepareFilenames
    rw [ht, hnames]
    by_cases hd : dupCheck (st.tracks.map fun tr =>
        san (st.CD_TITLE ++ " - Track " ++ cdtrack.noStr tr))
    · rw [if_pos hd]; exact Or.inl rfl
    · rw [if_neg hd]; exact Or.inr rfl
  · intro san st template i j hij hj he
    unfold prepareFilenames
    rw [if_pos]
    exact dupCheck_of_eq _ i j hij (by simpa [trackNames] using hj) he

/-- Witness for C8: the three default-template behaviours at concrete
    discs. -/
theorem c8_default_templates_witness :
    prepareFilenames id { CD_TITLE := "Quake", tracks := [{ no := 1, title := some "Song A", artist := some "Artist" }, { no := 2, title := some "Song B" }] } none =
      .ok ["01. Artist - Song A", "02. unknown artist - Song B"] ∧
    prepareFilenames id { CD_TITLE := "Quake", tracks := [{ no := 1 }, { no := 2 }] } none =
      .ok ["Quake - Track 01", "Quake - Track 02"] ∧
    prepareFilenames (fun _ => "same") { CD_TITLE := "Quake", tracks := [{ no := 1 }, { no := 2 }] } none =
      .error "Template resulted in duplicate entries" :=
  ⟨(c8_default_templates.1 id { CD_TITLE := "Quake", tracks := [{ no := 1, title := some "Song A", artist := some "Artist" }, { no := 2, title := some "Song B" }] } (by decide) (by decide)).resolve_left
      (fun h => Except.noConfusion h),
   (c8_default_templates.2.1 id { CD_TITLE := "Quake", tracks := [{ no := 1 }, { no := 2 }] } (by decide)).resolve_left
      (fun h => Except.noConfusion h),
   c8_default_templates.2.2 (fun _ => "same") { CD_TITLE := "Quake", tracks := [{ no := 1 }, { no := 2 }] } none 0 1 (by decide) (by decide) (by decide)⟩

/-! # Parser error cases -/

/-- Navigation: a line whose upper-cased form starts with TRACK lands in
    the TRACK branch of the parser. -/
theorem cueParser_TRACK_branch (st : cdinfos) (line : String)
    (h : startsKw (line.data.map upChar) "TRACK".data = true) :
    cueParser st line =
      (if st.openfile = none ∧ st.tracks = [] then
        .error "A FILE has not been defined before TRACK 01"
      else
        match validCheckLast st with
        | some e => .error e
        | none => trackCmd st (line.data.map upChar)) := by
  obtain ⟨r, hr⟩ := (startsKw_iff _ _).mp h
  simp only [cueParser, hr]
  have s1 : startsKw ("TRACK".data ++ r) "REM".data = false := rfl
  have s2 : startsKw ("TRACK".data ++ r) ";".data = false := rfl
  have s3 : startsKw ("TRACK".data ++ r) "TITLE".data = false := rfl
  have s4 : startsKw ("TRACK".data ++ r) "PERFORMER".data = false := rfl
  have s5 : startsKw ("TRACK".data ++ r) "FILE".data = false := rfl
  have s6 : startsKw ("TRACK".data ++ r) "TRACK".data = true := (startsKw_iff _ _).mpr ⟨r, rfl⟩
  simp only [s1, s2, s3, s4, s5, s6, Bool.or_self, Bool.false_eq_true, if_false, if_true]

/-- Navigation: a line whose upper-cased form starts with FILE lands in
    the FILE branch of the parser. -/
theorem cueParser_FILE_branch (st : cdinfos) (line : String)
    (h : startsKw (line.data.map upChar) "FILE".data = true) :
    cueParser st line =
      (match matchFILE line.data with
      | none => .error "Line error, Bad Syntax"
      | some (fname, ftype) =>
        if ¬ SUPPORTED_TRACK_FILES.contains (⟨ftype⟩ : String) then
          .error ("Unsupported TRACK File Type " ++ (⟨ftype⟩ : String))
        else
          match validCheckLast st with
          | some e => .error e
          | none => .ok { st with openfile := some (⟨fname⟩ : String) }) := by
  obtain ⟨r, hr⟩ := (startsKw_iff _ _).mp h
  simp only [cueParser, hr]
  have s1 : startsKw ("FILE".data ++ r) "REM".data = false := rfl
  have s2 : startsKw ("FILE".data ++ r) ";".data = false := rfl
  have s3 : startsKw ("FILE".data ++ r) "TITLE".data = false := rfl
  have s4 : startsKw ("FILE".data ++ r) "PERFORMER".data = false := rfl
  have s5 : startsKw ("FILE".data ++ r) "FILE".data = true := (startsKw_iff _ _).mpr ⟨r, rfl⟩
  simp only [s1, s2, s3, s4, s5, Bool.or_self, Bool.false_eq_true, if_false, if_true]

/-- Navigation: a line whose upper-cased form starts with INDEX lands in
    the INDEX branch of the parser. -/
theorem cueParser_INDEX_branch (st : cdinfos) (line : String)
    (h : startsKw (line.data.map upChar) "INDEX".data = true) :
    cueParser st line =
      (match st.tracks.getLast? with
      | none => .error "A Track is not defined yet"
      | some t =>
        match matchINDEX (line.data.map upChar) with
        | none => .error "Line error, Bad Syntax"
        | some (d, mm, ss, ff) =>
          if t.indexExists (parseIntD d) then
            .error ("Track " ++ toString t.no ++ " - Duplicate Index entry " ++ (⟨d⟩ : String))
          else
            .ok { st with tracks := modifyLast (fun tr => { tr with
              indexes := tr.indexes ++
                [⟨parseIntD d, parseIntD mm, parseIntD ss, parseIntD ff⟩] }) st.tracks }) := by
  obtain ⟨r, hr⟩ := (startsKw_iff _ _).mp h
  simp only [cueParser, hr]
  have s1 : startsKw ("INDEX".data ++ r) "REM".data = false := rfl
  have s2 : startsKw ("INDEX".data ++ r) ";".data = false := rfl
  have s3 : startsKw ("INDEX".data ++ r) "TITLE".data = false := rfl
  have s4 : startsKw ("INDEX".data ++ r) "PERFORMER".data = false := rfl
  have s5 : startsKw ("INDEX".data ++ r) "FILE".data = false := rfl
  have s6 : startsKw ("INDEX".data ++ r) "TRACK".data = false := rfl
  have s7 : startsKw ("INDEX".data ++ r) "INDEX".data = true := (startsKw_iff _ _).mpr ⟨r, rfl⟩
  simp only [s1, s2, s3, s4, s5, s6, s7, Bool.or_self, Bool.false_eq_true, if_false, if_true]

/-- Before any FILE line has been accepted, a non-FILE line leaves the
    parser with no pending file and no tracks (or fails). -/
theorem cueParser_keeps_empty (st : cdinfos) (line : String) (st' : cdinfos)
    (h1 : st.openfile = none) (h2 : st.tracks = [])
    (h3 : startsKw (line.data.map upChar) "FILE".data = false)
    (hok : cueParser st line = .ok st') :
    st'.openfile = none ∧ st'.tracks = [] := by
  simp only [cueParser] at hok
  repeat' split at hok
  all_goals first
    | (rw [Except.ok.injEq] at hok; subst hok; exact ⟨h1, h2⟩)
    | (exfalso; exact Except.noConfusion hok)
    | simp_all

/-- Helper for C4 case (i): from a state with no pending FILE and no tracks,
    a run of lines none of which is a FILE line followed by a TRACK line
    makes the parse loop fail. -/
theorem parseLoop_trackBeforeFile : ∀ (pre : List String) (st : cdinfos) (n : Nat)
    (l : String) (post : List String), st.openfile = none → st.tracks = [] →
    (∀ p ∈ pre, startsKw ((jsTrim p).data.map upChar) "FILE".data = false) →
    startsKw ((jsTrim l).data.map upChar) "TRACK".data = true →
    (parseLoop st n (pre ++ l :: post)).2.isSome = true
  | [], st, n, l, post, h1, h2, _, hl => by
    obtain ⟨r, hr⟩ := (startsKw_iff _ _).mp hl
    have hne : (jsTrim l).data ≠ [] := by
      intro h0
      rw [h0] at hr
      exact List.noConfusion hr
    have hlen : ¬ (jsTrim l).length = 0 :=
      fun h0 => hne (List.eq_nil_of_length_eq_zero h0)
    simp only [List.nil_append, parseLoop]
    rw [if_neg hlen]
    rw [cueParser_TRACK_branch st (jsTrim l) hl]
    rw [if_pos ⟨h1, h2⟩]
    rfl
  | p :: pre, st, n, l, post, h1, h2, hpre, hl => by
    have hp := hpre p (List.mem_cons_self p pre)
    have hpre2 : ∀ q ∈ pre, startsKw ((jsTrim q).data.map upChar) "FILE".data = false :=
      fun q hq => hpre q (List.mem_cons_of_mem p hq)
    simp only [List.cons_append, parseLoop]
    by_cases hz : (jsTrim p).length = 0
    · rw [if_pos hz]
      exact parseLoop_trackBeforeFile pre st (n + 1) l post h1 h2 hpre2 hl
    · rw [if_neg hz]
      cases hcp : cueParser st (jsTrim p) with
      | ok st2 =>
        obtain ⟨h1b, h2b⟩ := cueParser_keeps_empty st (jsTrim p) st2 h1 h2 hp hcp
        exact parseLoop_trackBeforeFile pre st2 (n + 1) l post h1b h2b hpre2 hl
      | error e => rfl

/-- C4 case (i) at loadCue level: the parse error surfaces as a load error. -/
theorem loadCue_trackBeforeFile (fs : String → Option Int) (san : String → String)
    (bn : String) (pre : List String) (l : String) (post : List String) (st : cdinfos)
    (h1 : st.openfile = none) (h2 : st.tracks = [])
    (hpre : ∀ p ∈ pre, startsKw ((jsTrim p).data.map upChar) "FILE".data = false)
    (hl : startsKw ((jsTrim l).data.map upChar) "TRACK".data = true) :
    (loadCue fs san bn (pre ++ l :: post) st).2.isSome = true := by
  have hp := parseLoop_trackBeforeFile pre st 0 l post h1 h2 hpre hl
  simp only [loadCue]
  rw [if_neg (by rw [h2]; simp)]
  rcases hpe : parseLoop st 0 (pre ++ l :: post) with ⟨st1, o⟩
  rw [hpe] at hp
  cases o with
  | none => simp at hp
  | some e => rfl

/-- C4 case (ii): a TRACK line whose number is already taken throws. -/
theorem cueParser_dup_track (st : cdinfos) (line : String) (d ty : List Char)
    (hT : startsKw (line.data.map upChar) "TRACK".data = true)
    (hg : ¬ (st.openfile = none ∧ st.tracks = []))
    (hvc : validCheckLast st = none)
    (hm : matchTRACK (line.data.map upChar) = some (d, ty))
    (hdup : st.tracks.any (fun t => t.no == parseIntD d) = true) :
    cueParser st line = .error ("Track " ++ (⟨d⟩ : String) ++ " is already defined") := by
  rw [cueParser_TRACK_branch st line hT, if_neg hg, hvc]
  simp only [trackCmd, hm]
  rw [if_pos hdup]

/-- C4 case (iii): an INDEX line whose number the open track already has
    throws. -/
theorem cueParser_dup_index (st : cdinfos) (line : String) (t : cdtrack)
    (d mm ss ff : List Char)
    (hI : startsKw (line.data.map upChar) "INDEX".data = true)
    (hlast : st.tracks.getLast? = some t)
    (hm : matchINDEX (line.data.map upChar) = some (d, mm, ss, ff))
    (hdup : t.indexExists (parseIntD d) = true) :
    cueParser st line =
      .error ("Track " ++ toString t.no ++ " - Duplicate Index entry " ++ (⟨d⟩ : String)) := by
  rw [cueParser_INDEX_branch st line hI, hlast]
  simp only [hm]
  rw [if_pos hdup]

/-- C4 case (iv), TRACK supersede: a new TRACK line while the open track has
    no index numbered 1 throws. -/
theorem cueParser_track_noIndex (st : cdinfos) (line : String) (t : cdtrack)
    (hT : startsKw (line.data.map upChar) "TRACK".data = true)
    (hg : ¬ (st.openfile = none ∧ st.tracks = []))
    (hlast : st.tracks.getLast? = some t)
    (hidx : t.indexExists 1 = false) :
    cueParser st line = .error ("TRACK " ++ toString t.no ++ " has no INDEX") := by
  have hvc : validCheckLast st = some ("TRACK " ++ toString t.no ++ " has no INDEX") := by
    simp [validCheckLast, hlast, hidx]
  rw [cueParser_TRACK_branch st line hT, if_neg hg, hvc]

/-- C4 case (iv), FILE supersede: a new FILE line of supported type while the
    open track has no index numbered 1 throws. -/
theorem cueParser_file_noIndex (st : cdinfos) (line : String) (t : cdtrack)
    (fname ftype : List Char)
    (hF : startsKw (line.data.map upChar) "FILE".data = true)
    (hm : matchFILE line.data = some (fname, ftype))
    (hsupp : SUPPORTED_TRACK_FILES.contains (⟨ftype⟩ : String) = true)
    (hlast : st.tracks.getLast? = some t)
    (hidx : t.indexExists 1 = false) :
    cueParser st line = .error ("TRACK " ++ toString t.no ++ " has no INDEX") := by
  have hvc : validCheckLast st = some ("TRACK " ++ toString t.no ++ " has no INDEX") := by
    simp [validCheckLast, hlast, hidx]
  rw [cueParser_FILE_branch st line hF]
  simp only [hm]
  rw [if_neg (not_not_intro hsupp)]
  rw [hvc]

/-- C4 case (iv), end of input: a sheet that parses but whose last track has
    no index numbered 1 fails the final validity check of loadCue. -/
theorem loadCue_end_noIndex (fs : String → Option Int) (san : String → String)
    (bn : String) (lines : List String) (st st1 : cdinfos) (t : cdtrack)
    (h0 : st.tracks = [])
    (hpl : parseLoop st 0 lines = (st1, none))
    (hlast : st1.tracks.getLast? = some t)
    (hidx : t.indexExists 1 = false) :
    (loadCue fs san bn lines st).2 = some ("TRACK " ++ toString t.no ++ " has no INDEX") := by
  have hne : st1.tracks ≠ [] := by
    intro h
    rw [h] at hlast
    exact Option.noConfusion hlast
  have hvc : validCheckLast st1 = some ("TRACK " ++ toString t.no ++ " has no INDEX") := by
    simp [validCheckLast, hlast, hidx]
  simp only [loadCue, hpl, h0, List.length_nil, gt_iff_lt, lt_self_iff_false, if_false]
  rw [if_neg (fun h => hne (List.eq_nil_of_length_eq_zero h)), hvc]

/-- C4 case (v): a FILE line whose type is not BINARY or WAVE throws. -/
theorem cueParser_file_badType (st : cdinfos) (line : String) (fname ftype : List Char)
    (hF : startsKw (line.data.map upChar) "FILE".data = true)
    (hm : matchFILE line.data = some (fname, ftype))
    (hsupp : SUPPORTED_TRACK_FILES.contains (⟨ftype⟩ : String) = false) :
    cueParser st line = .error ("Unsupported TRACK File Type " ++ (⟨ftype⟩ : String)) := by
  rw [cueParser_FILE_branch st line hF]
  simp only [hm]
  rw [if_pos (show ¬ SUPPORTED_TRACK_FILES.contains (⟨ftype⟩ : String) = true by
    rw [hsupp]; exact Bool.false_ne_true)]

/-- C4 case (vi): a TRACK line whose type is not a key of the sector-size
    table throws. -/
theorem cueParser_track_badType (st : cdinfos) (line : String) (d ty : List Char)
    (hT : startsKw (line.data.map upChar) "TRACK".data = true)
    (hg : ¬ (st.openfile = none ∧ st.tracks = []))
    (hvc : validCheckLast st = none)
    (hm : matchTRACK (line.data.map upChar) = some (d, ty))
    (hdup : st.tracks.any (fun t => t.no == parseIntD d) = false)
    (hsec : sectorsByType (⟨ty⟩ : String) = none) :
    cueParser st line = .error ("Unsupported Track type " ++ (⟨ty⟩ : String)) := by
  rw [cueParser_TRACK_branch st line hT, if_neg hg, hvc]
  simp only [trackCmd, hm]
  rw [if_neg (by simp [hdup])]
  rw [if_pos (by rw [hsec]; rfl)]

/-- C4: parsing a sheet fails with an error, never silently, in each of the
    six cases: (i) a TRACK line before any FILE line; (ii) a duplicate track
    number; (iii) a duplicate index number within one track; (iv) a track
    superseded by a TRACK line, superseded by a FILE line, or ending the
    sheet, without an index numbered 1; (v) a FILE line with a type outside
    BINARY/WAVE; (vi) a TRACK line with a type outside the sector table. -/
theorem c4_parse_failures :
    (∀ (fs : String → Option Int) (san : String → String) (bn : String)
        (pre : List String) (l : String) (post : List String) (st : cdinfos),
      st.openfile = none → st.tracks = [] →
      (∀ p ∈ pre, startsKw ((jsTrim p).data.map upChar) "FILE".data = false) →
      startsKw ((jsTrim l).data.map upChar) "TRACK".data = true →
      (loadCue fs san bn (pre ++ l :: post) st).2.isSome = true) ∧
    (∀ (st : cdinfos) (line : String) (d ty : List Char),
      startsKw (line.data.map upChar) "TRACK".data = true →
      ¬ (st.openfile = none ∧ st.tracks = []) →
      validCheckLast st = none →
      matchTRACK (line.data.map upChar) = some (d, ty) →
      st.tracks.any (fun t => t.no == parseIntD d) = true →
      cueParser st line = .error ("Track " ++ (⟨d⟩ : String) ++ " is already defined")) ∧
    (∀ (st : cdinfos) (line : String) (t : cdtrack) (d mm ss ff : List Char),
      startsKw (line.data.map upChar) "INDEX".data = true →
      st.tracks.getLast? = some t →
      matchINDEX (line.data.map upChar) = some (d, mm, ss, ff) →
      t.indexExists (parseIntD d) = true →
      cueParser st line =
        .error ("Track " ++ toString t.no ++ " - Duplicate Index entry " ++ (⟨d⟩ : String))) ∧
    (∀ (st : cdinfos) (line : String) (t : cdtrack),
      startsKw (line.data.map upChar) "TRACK".data = true →
      ¬ (st.openfile = none ∧ st.tracks = []) →
      st.tracks.getLast? = some t →
      t.indexExists 1 = false →
      cueParser st line = .error ("TRACK " ++ toString t.no ++ " has no INDEX")) ∧
    (∀ (st : cdinfos) (line : String) (t : cdtrack) (fname ftype : List Char),
      startsKw (line.data.map upChar) "FILE".data = true →
      matchFILE line.data = some (fname, ftype) →
      SUPPORTED_TRACK_FILES.contains (⟨ftype⟩ : String) = true →
      st.tracks.getLast? = some t →
      t.indexExists 1 = false →
      cueParser st line = .error ("TRACK " ++ toString t.no ++ " has no INDEX")) ∧
    (∀ (fs : String → Option Int) (san : String → String) (bn : String)
        (lines : List String) (st st1 : cdinfos) (t : cdtrack),
      st.tracks = [] →
      parseLoop st 0 lines = (st1, none) →
      st1.tracks.getLast? = some t →
      t.indexExists 1 = false →
      (loadCue fs san bn lines st).2 = some ("TRACK " ++ toString t.no ++ " has no INDEX")) ∧
    (∀ (st : cdinfos) (line : String) (fname ftype : List Char),
      startsKw (line.data.map upChar) "FILE".data = true →
      matchFILE line.data = some (fname, ftype) →
      SUPPORTED_TRACK_FILES.contains (⟨ftype⟩ : String) = false →
      cueParser st line = .error ("Unsupported TRACK File Type " ++ (⟨ftype⟩ : String))) ∧
    (∀ (st : cdinfos) (line : String) (d ty : List Char),
      startsKw (line.data.map upChar) "TRACK".data = true →
      ¬ (st.openfile = none ∧ st.tracks = []) →
      validCheckLast st = none →
      matchTRACK (line.data.map upChar) = some (d, ty) →
      st.tracks.any (fun t => t.no == parseIntD d) = false →
      sectorsByType (⟨ty⟩ : String) = none →
      cueParser st line = .error ("Unsupported Track type " ++ (⟨ty⟩ : String))) :=
  ⟨loadCue_trackBeforeFile, cueParser_dup_track, cueParser_dup_index,
   cueParser_track_noIndex, cueParser_file_noIndex, loadCue_end_noIndex,
   cueParser_file_badType, cueParser_track_badType⟩

/-- C4 witness: each failure case on a concrete sheet, line and state. -/
theorem c4_parse_failures_witness :
    (loadCue (fun _ => none) (fun s => s) "x" ["REM hi", "TRACK 01 AUDIO"] {}).2.isSome
      = true ∧
    cueParser { tracks := [{ no := 1, indexes := [⟨1, 0, 0, 0⟩] }] } "TRACK 01 AUDIO" =
      .error ("Track " ++ (⟨['0', '1']⟩ : String) ++ " is already defined") ∧
    cueParser { tracks := [{ no := 1, indexes := [⟨1, 0, 0, 0⟩] }] } "INDEX 01 00:00:00" =
      .error ("Track " ++ toString (1 : Int) ++ " - Duplicate Index entry " ++
        (⟨['0', '1']⟩ : String)) ∧
    cueParser { tracks := [{ no := 1 }] } "TRACK 02 AUDIO" =
      .error ("TRACK " ++ toString (1 : Int) ++ " has no INDEX") ∧
    cueParser { tracks := [{ no := 1 }] } "FILE \"b.bin\" WAVE" =
      .error ("TRACK " ++ toString (1 : Int) ++ " has no INDEX") ∧
    (loadCue (fun _ => none) (fun s => s) "x" ["FILE \"a.bin\" BINARY", "TRACK 01 AUDIO"]
        {}).2 = some ("TRACK " ++ toString (1 : Int) ++ " has no INDEX") ∧
    cueParser {} "FILE \"a.bin\" MP3" =
      .error ("Unsupported TRACK File Type " ++ (⟨"MP3".data⟩ : String)) ∧
    cueParser { tracks := [{ no := 1, indexes := [⟨1, 0, 0, 0⟩] }] } "TRACK 02 XMODE" =
      .error ("Unsupported Track type " ++ (⟨"XMODE".data⟩ : String)) :=
  ⟨c4_parse_failures.1 (fun _ => none) (fun s => s) "x" ["REM hi"] "TRACK 01 AUDIO" []
      {} rfl rfl (by decide) (by decide),
   c4_parse_failures.2.1 { tracks := [{ no := 1, indexes := [⟨1, 0, 0, 0⟩] }] }
      "TRACK 01 AUDIO" ['0', '1'] "AUDIO".data
      (by decide) (by decide) (by decide) (by decide) (by decide),
   c4_parse_failures.2.2.1 { tracks := [{ no := 1, indexes := [⟨1, 0, 0, 0⟩] }] }
      "INDEX 01 00:00:00" { no := 1, indexes := [⟨1, 0, 0, 0⟩] }
      ['0', '1'] ['0', '0'] ['0', '0'] ['0', '0']
      (by decide) (by decide) (by decide) (by decide),
   c4_parse_failures.2.2.2.1 { tracks := [{ no := 1 }] } "TRACK 02 AUDIO" { no := 1 }
      (by decide) (by decide) (by decide) (by decide),
   c4_parse_failures.2.2.2.2.1 { tracks := [{ no := 1 }] } "FILE \"b.bin\" WAVE"
      { no := 1 } "b.bin".data "WAVE".data
      (by decide) (by decide) (by decide) (by decide) (by decide),
   c4_parse_failures.2.2.2.2.2.1 (fun _ => none) (fun s => s) "x"
      ["FILE \"a.bin\" BINARY", "TRACK 01 AUDIO"] {}
      { tracks := [{ no := 1, type := "AUDIO", file := some "a.bin" }] }
      { no := 1, type := "AUDIO", file := some "a.bin" }
      rfl (by decide) (by decide) (by decide),
   c4_parse_failures.2.2.2.2.2.2.1 {} "FILE \"a.bin\" MP3" "a.bin".data "MP3".data
      (by decide) (by decide) (by decide),
   c4_parse_failures.2.2.2.2.2.2.2 { tracks := [{ no := 1, indexes := [⟨1, 0, 0, 0⟩] }] }
      "TRACK 02 XMODE" ['0', '2'] "XMODE".data
      (by decide) (by decide) (by decide) (by decide) (by decide) (by decide)⟩

/-- The shared-track layout computed by the resolver loop: on success the
    output has one entry per input (plus the current track in front), the
    current track keeps its byteStart, and every input track without its own
    file gets byteStart = sectorSize(owner type) * frames of its FIRST
    LISTED index while its predecessor's byteSize spans the two starts. -/
theorem resolveGo_shared_spec : ∀ (rest : List cdtrack) (fs : String → Option Int)
    (cur o : cdtrack) (os : Option Int) (acc : Int) (ys : List cdtrack) (sz : Int),
    resolveGo fs cur o os acc rest = (ys, sz, none) →
    ys.length = rest.length + 1 ∧
    (nthTrack ys 0).byteStart = cur.byteStart ∧
    (∀ j, j < rest.length → (nthTrack rest j).file = none →
      ∃ oty sec i0, ownerTy (some o.type) rest j = some oty ∧
        sectorsByType oty = some sec ∧
        (nthTrack rest j).indexes.head? = some i0 ∧
        (nthTrack ys (j + 1)).byteStart = sec * i0.toFrames ∧
        (nthTrack ys j).byteSize =
          (nthTrack ys (j + 1)).byteStart - (nthTrack ys j).byteStart)
  | [], fs, cur, o, os, acc, ys, sz, h => by
    simp only [resolveGo, Prod.mk.injEq] at h
    obtain ⟨hys, -, -⟩ := h
    subst hys
    refine ⟨rfl, rfl, ?_⟩
    intro j hj
    exact absurd hj (by simp)
  | tr2 :: rest2, fs, cur, o, os, acc, ys, sz, h => by
    simp only [resolveGo] at h
    by_cases hf : tr2.file = none
    · rw [if_pos hf] at h
      cases hsec : sectorsByType o.type with
      | none => rw [hsec] at h; simp [Prod.mk.injEq] at h
      | some sec =>
        rw [hsec] at h
        cases hi : tr2.indexes.head? with
        | none => rw [hi] at h; simp [Prod.mk.injEq] at h
        | some i0 =>
          rw [hi] at h
          simp only [resolveStep1, hf] at h
          rcases hr : resolveGo fs
              { tr2 with file := none, byteStart := sec * i0.toFrames, shared := o.file }
              o os acc rest2
            with ⟨ys2, sz2, e2⟩
          rw [hr] at h
          simp only [Prod.mk.injEq] at h
          obtain ⟨hys, hsz, he⟩ := h
          subst he
          obtain ⟨ih1, ih2, ih3⟩ :=
            resolveGo_shared_spec rest2 fs
              { tr2 with file := none, byteStart := sec * i0.toFrames, shared := o.file }
              o os acc ys2 sz2 hr
          subst hys
          refine ⟨by simp [ih1], rfl, ?_⟩
          intro j hj hfj
          cases j with
          | zero =>
            refine ⟨o.type, sec, i0, by simp [ownerTy, hf], hsec,
              by simpa [nthTrack] using hi, ?_, ?_⟩
            · show (nthTrack ys2 0).byteStart = sec * i0.toFrames
              rw [ih2]
            · show sec * i0.toFrames - cur.byteStart =
                (nthTrack ys2 0).byteStart - cur.byteStart
              rw [ih2]
          | succ j' =>
            have hj' : j' < rest2.length := by
              simpa [Nat.succ_lt_succ_iff] using hj
            have hfj' : (nthTrack rest2 j').file = none := by
              simpa [nthTrack] using hfj
            obtain ⟨oty, sec2, i02, hot, hs2, hh, hbs, hbz⟩ := ih3 j' hj' hfj'
            refine ⟨oty, sec2, i02, ?_, hs2, by simpa [nthTrack] using hh,
              by simpa [nthTrack] using hbs, by simpa [nthTrack] using hbz⟩
            simpa [ownerTy, hf] using hot
    · rw [if_neg hf] at h
      cases hf2 : tr2.file with
      | none => exact absurd hf2 hf
      | some f =>
        simp only [resolveStep1, hf2] at h
        cases hfs : fs f with
        | none => rw [hfs] at h; simp [Prod.mk.injEq] at h
        | some szf =>
          simp only [hfs] at h
          rcases hr : resolveGo fs tr2 tr2 (some szf) (acc + szf) rest2
            with ⟨ys2, sz2, e2⟩
          rw [hr] at h
          simp only [Prod.mk.injEq] at h
          obtain ⟨hys, hsz, he⟩ := h
          subst he
          obtain ⟨ih1, ih2, ih3⟩ :=
            resolveGo_shared_spec rest2 fs tr2 tr2 (some szf) (acc + szf) ys2 sz2 hr
          subst hys
          refine ⟨by simp [ih1], rfl, ?_⟩
          intro j hj hfj
          cases j with
          | zero => simp [nthTrack, hf2] at hfj
          | succ j' =>
            have hj' : j' < rest2.length := by
              simpa [Nat.succ_lt_succ_iff] using hj
            have hfj' : (nthTrack rest2 j').file = none := by
              simpa [nthTrack] using hfj
            obtain ⟨oty, sec2, i02, hot, hs2, hh, hbs, hbz⟩ := ih3 j' hj' hfj'
            refine ⟨oty, sec2, i02, ?_, hs2, by simpa [nthTrack] using hh,
              by simpa [nthTrack] using hbs, by simpa [nthTrack] using hbz⟩
            simpa [ownerTy, hf2] using hot

/-- C1 counterexample: on a disc whose second track lists INDEX 00 before
    INDEX 01, the resolver multiplies the sector size by the frames of the
    FIRST listed index (75, from INDEX 00 00:01:00), not by the frames of
    the index numbered 1 (150, from INDEX 01 00:02:00): byteStart is
    176400, not 2352 * 150 = 352800. -/
theorem c1_counterexample :
    (loadCue (fun s => if s = "a.bin" then some 705600 else none) (fun s => s) "x"
      ["FILE \"a.bin\" BINARY", "TRACK 01 AUDIO", "INDEX 01 00:00:00",
       "TRACK 02 AUDIO", "INDEX 00 00:01:00", "INDEX 01 00:02:00"] {}).2 = none ∧
    (nthTrack (loadCue (fun s => if s = "a.bin" then some 705600 else none) (fun s => s) "x"
      ["FILE \"a.bin\" BINARY", "TRACK 01 AUDIO", "INDEX 01 00:00:00",
       "TRACK 02 AUDIO", "INDEX 00 00:01:00", "INDEX 01 00:02:00"] {}).1.tracks 1).indexes.find?
      (fun a => a.no == 1) = some ⟨1, 0, 2, 0⟩ ∧
    cuetime.toFrames ⟨1, 0, 2, 0⟩ = 150 ∧
    sectorsByType (nthTrack (loadCue (fun s => if s = "a.bin" then some 705600 else none)
      (fun s => s) "x"
      ["FILE \"a.bin\" BINARY", "TRACK 01 AUDIO", "INDEX 01 00:00:00",
       "TRACK 02 AUDIO", "INDEX 00 00:01:00", "INDEX 01 00:02:00"] {}).1.tracks 0).type =
      some 2352 ∧
    (nthTrack (loadCue (fun s => if s = "a.bin" then some 705600 else none) (fun s => s) "x"
      ["FILE \"a.bin\" BINARY", "TRACK 01 AUDIO", "INDEX 01 00:00:00",
       "TRACK 02 AUDIO", "INDEX 00 00:01:00", "INDEX 01 00:02:00"] {}).1.tracks 1).byteStart =
      176400 ∧
    ¬ (176400 : Int) = 2352 * 150 := by
  refine ⟨by decide, by decide, by decide, by decide, by decide, by decide⟩

/-- C1 (amended): for every resolver run that succeeds, a track at position
    k+1 without its own file gets byteStart = sectorSize(owner type) times
    the frame count of its FIRST LISTED index (indexes[0], which is the
    INDEX 01 entry only when no other index line precedes it), and the
    previous track's byteSize is the difference of the two byteStarts. -/
theorem c1_amended (fs : String → Option Int) (acc : Int) (l ys : List cdtrack) (sz : Int)
    (h : resolveTracks fs none none acc l = (ys, sz, none))
    (k : Nat) (hk : k + 1 < l.length)
    (hfile : (nthTrack l (k + 1)).file = none) :
    ∃ oty sec i0, ownerTy none l (k + 1) = some oty ∧
      sectorsByType oty = some sec ∧
      (nthTrack l (k + 1)).indexes.head? = some i0 ∧
      (nthTrack ys (k + 1)).byteStart = sec * i0.toFrames ∧
      (nthTrack ys k).byteSize =
        (nthTrack ys (k + 1)).byteStart - (nthTrack ys k).byteStart := by
  cases l with
  | nil => simp at hk
  | cons tr rest =>
    simp only [resolveTracks] at h
    cases hf : tr.file with
    | none =>
      simp only [resolveStep1, hf] at h
      simp [Prod.mk.injEq] at h
    | some f =>
      simp only [resolveStep1, hf] at h
      cases hfs : fs f with
      | none => simp only [hfs] at h; simp [Prod.mk.injEq] at h
      | some szf =>
        simp only [hfs] at h
        obtain ⟨s1, s2, s3⟩ :=
          resolveGo_shared_spec rest fs tr tr (some szf) (acc + szf) ys sz h
        have hk' : k < rest.length := by simpa [Nat.succ_lt_succ_iff] using hk
        have hfile' : (nthTrack rest k).file = none := by simpa [nthTrack] using hfile
        obtain ⟨oty, sec, i0, hot, hs, hh, hbs, hbz⟩ := s3 k hk' hfile'
        refine ⟨oty, sec, i0, ?_, hs, by simpa [nthTrack] using hh, hbs, hbz⟩
        simpa [ownerTy, hf] using hot

/-- C1 witness: on the two-track layout with INDEX 00 00:01:00 listed first
    on the shared second track, the resolver run instantiates the amended
    statement with sector 2352 and first-index frame count 75. -/
theorem c1_amended_witness :
    ∃ oty sec i0, ownerTy none
        [{ no := 1, type := "AUDIO", file := some "a.bin", indexes := [⟨1, 0, 0, 0⟩] },
         { no := 2, type := "AUDIO", indexes := [⟨0, 0, 1, 0⟩, ⟨1, 0, 2, 0⟩] }] 1 = some oty ∧
      sectorsByType oty = some sec ∧
      (nthTrack
        [{ no := 1, type := "AUDIO", file := some "a.bin", indexes := [⟨1, 0, 0, 0⟩] },
         { no := 2, type := "AUDIO", indexes := [⟨0, 0, 1, 0⟩, ⟨1, 0, 2, 0⟩] }]
        1).indexes.head? = some i0 ∧
      (nthTrack
        [{ no := 1, type := "AUDIO", file := some "a.bin", indexes := [⟨1, 0, 0, 0⟩],
           byteSize := 176400 },
         { no := 2, type := "AUDIO", indexes := [⟨0, 0, 1, 0⟩, ⟨1, 0, 2, 0⟩],
           byteStart := 176400, byteSize := 529200, shared := some "a.bin" }]
        1).byteStart = sec * i0.toFrames ∧
      (nthTrack
        [{ no := 1, type := "AUDIO", file := some "a.bin", indexes := [⟨1, 0, 0, 0⟩],
           byteSize := 176400 },
         { no := 2, type := "AUDIO", indexes := [⟨0, 0, 1, 0⟩, ⟨1, 0, 2, 0⟩],
           byteStart := 176400, byteSize := 529200, shared := some "a.bin" }]
        0).byteSize =
        (nthTrack
          [{ no := 1, type := "AUDIO", file := some "a.bin", indexes := [⟨1, 0, 0, 0⟩],
             byteSize := 176400 },
           { no := 2, type := "AUDIO", indexes := [⟨0, 0, 1, 0⟩, ⟨1, 0, 2, 0⟩],
             byteStart := 176400, byteSize := 529200, shared := some "a.bin" }]
          1).byteStart -
        (nthTrack
          [{ no := 1, type := "AUDIO", file := some "a.bin", indexes := [⟨1, 0, 0, 0⟩],
             byteSize := 176400 },
           { no := 2, type := "AUDIO", indexes := [⟨0, 0, 1, 0⟩, ⟨1, 0, 2, 0⟩],
             byteStart := 176400, byteSize := 529200, shared := some "a.bin" }]
          0).byteStart :=
  c1_amended (fun s => if s = "a.bin" then some 705600 else none) 0
    [{ no := 1, type := "AUDIO", file := some "a.bin", indexes := [⟨1, 0, 0, 0⟩] },
     { no := 2, type := "AUDIO", indexes := [⟨0, 0, 1, 0⟩, ⟨1, 0, 2, 0⟩] }]
    [{ no := 1, type := "AUDIO", file := some "a.bin", indexes := [⟨1, 0, 0, 0⟩],
       byteSize := 176400 },
     { no := 2, type := "AUDIO", indexes := [⟨0, 0, 1, 0⟩, ⟨1, 0, 2, 0⟩],
       byteStart := 176400, byteSize := 529200, shared := some "a.bin" }]
    705600 (by decide) 0 (by decide) (by decide)

/-- Unfolding of the byte-size sum over a cons. -/
theorem sumBytes_cons (a : cdtrack) (l : List cdtrack) :
    sumBytes (a :: l) = a.byteSize + sumBytes l := by
  simp [sumBytes]

/-- The resolver loop preserves the file fields, in order. -/
theorem resolveGo_files : ∀ (rest : List cdtrack) (fs : String → Option Int)
    (cur o : cdtrack) (os : Option Int) (acc : Int) (ys : List cdtrack) (sz : Int),
    resolveGo fs cur o os acc rest = (ys, sz, none) →
    ys.map cdtrack.file = cur.file :: rest.map cdtrack.file
  | [], fs, cur, o, os, acc, ys, sz, h => by
    simp only [resolveGo, Prod.mk.injEq] at h
    obtain ⟨hys, -, -⟩ := h
    subst hys
    rfl
  | tr2 :: rest2, fs, cur, o, os, acc, ys, sz, h => by
    simp only [resolveGo] at h
    by_cases hf : tr2.file = none
    · rw [if_pos hf] at h
      cases hsec : sectorsByType o.type with
      | none => rw [hsec] at h; simp [Prod.mk.injEq] at h
      | some sec =>
        rw [hsec] at h
        cases hi : tr2.indexes.head? with
        | none => rw [hi] at h; simp [Prod.mk.injEq] at h
        | some i0 =>
          rw [hi] at h
          simp only [resolveStep1, hf] at h
          rcases hr : resolveGo fs
              { tr2 with file := none, byteStart := sec * i0.toFrames, shared := o.file }
              o os acc rest2 with ⟨ys2, sz2, e2⟩
          rw [hr] at h
          simp only [Prod.mk.injEq] at h
          obtain ⟨hys, -, he⟩ := h
          subst he
          subst hys
          have ih := resolveGo_files rest2 fs
            { tr2 with file := none, byteStart := sec * i0.toFrames, shared := o.file }
            o os acc ys2 sz2 hr
          simp [ih, hf]
    · rw [if_neg hf] at h
      cases hf2 : tr2.file with
      | none => exact absurd hf2 hf
      | some f =>
        simp only [resolveStep1, hf2] at h
        cases hfs : fs f with
        | none => simp only [hfs] at h; simp [Prod.mk.injEq] at h
        | some szf =>
          simp only [hfs] at h
          rcases hr : resolveGo fs tr2 tr2 (some szf) (acc + szf) rest2
            with ⟨ys2, sz2, e2⟩
          rw [hr] at h
          simp only [Prod.mk.injEq] at h
          obtain ⟨hys, -, he⟩ := h
          subst he
          subst hys
          have ih := resolveGo_files rest2 fs tr2 tr2 (some szf) (acc + szf) ys2 sz2 hr
          simp [ih]

/-- When every remaining track shares the owner's file, the resolver loop
    produces a contiguous chain of byte ranges whose sizes telescope to the
    open file size minus the current track's start. -/
theorem resolveGo_chain : ∀ (rest : List cdtrack) (fs : String → Option Int)
    (cur o : cdtrack) (os : Option Int) (acc : Int) (ys : List cdtrack) (sz : Int),
    (∀ t ∈ rest, t.file = none) →
    resolveGo fs cur o os acc rest = (ys, sz, none) →
    ∃ hd tl, ys = hd :: tl ∧ hd.byteStart = cur.byteStart ∧
      sumBytes ys = os.getD 0 - cur.byteStart ∧ contig ys
  | [], fs, cur, o, os, acc, ys, sz, _, h => by
    simp only [resolveGo, Prod.mk.injEq] at h
    obtain ⟨hys, -, -⟩ := h
    subst hys
    refine ⟨_, _, rfl, rfl, ?_, ?_⟩
    · simp [sumBytes]
    · exact List.chain'_singleton _
  | tr2 :: rest2, fs, cur, o, os, acc, ys, sz, hsh, h => by
    have hf : tr2.file = none := hsh tr2 (List.mem_cons_self tr2 rest2)
    simp only [resolveGo] at h
    rw [if_pos hf] at h
    cases hsec : sectorsByType o.type with
    | none => rw [hsec] at h; simp [Prod.mk.injEq] at h
    | some sec =>
      rw [hsec] at h
      cases hi : tr2.indexes.head? with
      | none => rw [hi] at h; simp [Prod.mk.injEq] at h
      | some i0 =>
        rw [hi] at h
        simp only [resolveStep1, hf] at h
        rcases hr : resolveGo fs
            { tr2 with file := none, byteStart := sec * i0.toFrames, shared := o.file }
            o os acc rest2 with ⟨ys2, sz2, e2⟩
        rw [hr] at h
        simp only [Prod.mk.injEq] at h
        obtain ⟨hys, -, he⟩ := h
        subst he
        subst hys
        obtain ⟨hd, tl, hys2, hhd, hsum, hcontig⟩ :=
          resolveGo_chain rest2 fs
            { tr2 with file := none, byteStart := sec * i0.toFrames, shared := o.file }
            o os acc ys2 sz2 (fun t ht => hsh t (List.mem_cons_of_mem tr2 ht)) hr
        subst hys2
        refine ⟨_, _, rfl, rfl, ?_, ?_⟩
        · rw [sumBytes_cons, hsum]
          simp
        · refine List.chain'_cons.mpr ⟨?_, hcontig⟩
          rw [hhd]
          simp

/-- nthTrack agrees with get below the length. -/
theorem nthTrack_eq_get (l : List cdtrack) (i : Nat) (h : i < l.length) :
    nthTrack l i = l.get ⟨i, h⟩ := by
  simp [nthTrack, List.getD_eq_getElem?_getD, List.getElem?_eq_getElem h]

/-- A contiguous chain of ranges with non-negative sizes has pairwise
    disjoint ranges in order. -/
theorem contig_nonneg_disjoint (l : List cdtrack) (hc : contig l)
    (hn : ∀ t ∈ l, 0 ≤ t.byteSize) : disjointRanges l := by
  have hstep : ∀ i, i + 1 < l.length →
      (nthTrack l i).byteStart + (nthTrack l i).byteSize =
        (nthTrack l (i + 1)).byteStart := by
    intro i hi
    have h2 := List.chain'_iff_get.mp hc i (by omega)
    rw [nthTrack_eq_get l i (by omega), nthTrack_eq_get l (i + 1) hi]
    exact h2
  have hmono : ∀ (n) (m), m ≤ n → n < l.length →
      (nthTrack l m).byteStart ≤ (nthTrack l n).byteStart := by
    intro n
    induction n with
    | zero =>
      intro m hmn _
      rw [Nat.le_zero.mp hmn]
    | succ k ih =>
      intro m hmn hlt
      rcases Nat.lt_or_ge m (k + 1) with hm | hm
      · have h1 := ih m (by omega) (by omega)
        have h2 := hstep k hlt
        have hk : k < l.length := by omega
        have h3 : 0 ≤ (nthTrack l k).byteSize := by
          rw [nthTrack_eq_get l k hk]
          exact hn _ (List.get_mem l k hk)
        omega
      · rw [show m = k + 1 by omega]
  intro j k hjk hk
  have h2 := hstep j (by omega)
  have h3 := hmono k (j + 1) (by omega) hk
  omega

/-- One accepted line never writes a non-zero byteStart into a track. -/
theorem cueParser_byteStart0 (st : cdinfos) (line : String) (st' : cdinfos)
    (hok : cueParser st line = .ok st')
    (hinv : ∀ t ∈ st.tracks, t.byteStart = 0) :
    ∀ t ∈ st'.tracks, t.byteStart = 0 := by
  rcases cueParser_tracks st line st' hok with h | ⟨v, h⟩ | ⟨v, h⟩ |
      ⟨tr, hidx, hpg, hbs, h⟩ | ⟨d, mm, ss, ff, hm, h⟩ | ⟨mm, ss, ff, hm, h⟩
  · rw [h]; exact hinv
  · rw [h]
    intro t ht
    rcases mem_modifyLast _ _ _ ht with ht2 | ⟨y, hy, rfl⟩
    · exact hinv t ht2
    · exact hinv y hy
  · rw [h]
    intro t ht
    rcases mem_modifyLast _ _ _ ht with ht2 | ⟨y, hy, rfl⟩
    · exact hinv t ht2
    · exact hinv y hy
  · rw [h]
    intro t ht
    rcases List.mem_append.mp ht with ht2 | ht2
    · exact hinv t ht2
    · rw [List.mem_singleton.mp ht2]
      exact hbs
  · rw [h]
    intro t ht
    rcases mem_modifyLast _ _ _ ht with ht2 | ⟨y, hy, rfl⟩
    · exact hinv t ht2
    · exact hinv y hy
  · rw [h]
    intro t ht
    rcases mem_modifyLast _ _ _ ht with ht2 | ⟨y, hy, rfl⟩
    · exact hinv t ht2
    · exact hinv y hy

/-- The parse loop never writes a non-zero byteStart. -/
theorem parseLoop_byteStart0 : ∀ (lines : List String) (st : cdinfos) (n : Nat),
    (∀ t ∈ st.tracks, t.byteStart = 0) →
    ∀ t ∈ (parseLoop st n lines).1.tracks, t.byteStart = 0
  | [], st, n, hinv => hinv
  | l :: rest, st, n, hinv => by
    simp only [parseLoop]
    by_cases hz : (jsTrim l).length = 0
    · rw [if_pos hz]
      exact parseLoop_byteStart0 rest st (n + 1) hinv
    · rw [if_neg hz]
      cases hcp : cueParser st (jsTrim l) with
      | ok st2 =>
        exact parseLoop_byteStart0 rest st2 (n + 1)
          (cueParser_byteStart0 st (jsTrim l) st2 hcp hinv)
      | error e => exact hinv

/-- C2 counterexample: a single-file disc whose INDEX 01 positions decrease
    (track 3 starts before track 2) loads successfully, but the computed
    ranges overlap: byte 200000 lies both in track 1's range [0, 352800)
    and in track 3's range [176400, 705600), so the ranges are not pairwise
    disjoint (track 2 even gets a negative byteSize). -/
theorem c2_counterexample :
    (loadCue (fun s => if s = "a.bin" then some 705600 else none) (fun s => s) "x"
      ["FILE \"a.bin\" BINARY", "TRACK 01 AUDIO", "INDEX 01 00:00:00",
       "TRACK 02 AUDIO", "INDEX 01 00:02:00", "TRACK 03 AUDIO",
       "INDEX 01 00:01:00"] {}).2 = none ∧
    ((loadCue (fun s => if s = "a.bin" then some 705600 else none) (fun s => s) "x"
      ["FILE \"a.bin\" BINARY", "TRACK 01 AUDIO", "INDEX 01 00:00:00",
       "TRACK 02 AUDIO", "INDEX 01 00:02:00", "TRACK 03 AUDIO",
       "INDEX 01 00:01:00"] {}).1.tracks.map fun t => (t.no, t.file, t.byteStart, t.byteSize)) =
      [(1, some "a.bin", 0, 352800), (2, none, 352800, -176400), (3, none, 176400, 529200)] ∧
    inRange (nthTrack (loadCue (fun s => if s = "a.bin" then some 705600 else none)
      (fun s => s) "x"
      ["FILE \"a.bin\" BINARY", "TRACK 01 AUDIO", "INDEX 01 00:00:00",
       "TRACK 02 AUDIO", "INDEX 01 00:02:00", "TRACK 03 AUDIO",
       "INDEX 01 00:01:00"] {}).1.tracks 0) 200000 ∧
    inRange (nthTrack (loadCue (fun s => if s = "a.bin" then some 705600 else none)
      (fun s => s) "x"
      ["FILE \"a.bin\" BINARY", "TRACK 01 AUDIO", "INDEX 01 00:00:00",
       "TRACK 02 AUDIO", "INDEX 01 00:02:00", "TRACK 03 AUDIO",
       "INDEX 01 00:01:00"] {}).1.tracks 2) 200000 ∧
    ¬ disjointRanges (loadCue (fun s => if s = "a.bin" then some 705600 else none)
      (fun s => s) "x"
      ["FILE \"a.bin\" BINARY", "TRACK 01 AUDIO", "INDEX 01 00:00:00",
       "TRACK 02 AUDIO", "INDEX 01 00:02:00", "TRACK 03 AUDIO",
       "INDEX 01 00:01:00"] {}).1.tracks := by
  refine ⟨by decide, by decide, ⟨by decide, by decide⟩, ⟨by decide, by decide⟩,
    fun hd => ?_⟩
  exact absurd (hd 0 2 (by decide) (by decide)) (by decide)

/-- C2 (amended): on every successfully loaded disc whose tracks all lie in
    the file declared by the first track, the byteSizes sum to that file's
    size and the ranges are contiguous in track order; they are moreover
    pairwise disjoint whenever every byteSize is non-negative (which a disc
    with decreasing INDEX positions violates). -/
theorem c2_amended (fs : String → Option Int) (san : String → String) (bn : String)
    (lines : List String) (st st' : cdinfos) (f : String)
    (hload : loadCue fs san bn lines st = (st', none))
    (hf : (nthTrack st'.tracks 0).file = some f)
    (hshared : ∀ t ∈ st'.tracks.tail, t.file = none) :
    ∃ size, fs f = some size ∧ sumBytes st'.tracks = size ∧ contig st'.tracks ∧
      ((∀ t ∈ st'.tracks, 0 ≤ t.byteSize) → disjointRanges st'.tracks) := by
  obtain ⟨hst0, st1, hpl, hne, hvc, hres⟩ := loadCue_ok_decomp fs san bn lines st st' hload
  have hinv : ∀ t ∈ st1.tracks, t.byteStart = 0 := by
    have h0 : ∀ t ∈ st.tracks, t.byteStart = 0 := by
      rw [hst0]; intro t ht; simp at ht
    have h1 := parseLoop_byteStart0 lines st 0 h0
    rw [hpl] at h1
    exact h1
  cases hl : st1.tracks with
  | nil => exact absurd hl hne
  | cons tr rest =>
    rw [hl] at hres
    simp only [resolveTracks] at hres
    cases hf1 : tr.file with
    | none =>
      simp only [resolveStep1, hf1] at hres
      simp [Prod.mk.injEq] at hres
    | some f0 =>
      simp only [resolveStep1, hf1] at hres
      cases hfs : fs f0 with
      | none => simp only [hfs] at hres; simp [Prod.mk.injEq] at hres
      | some szf =>
        simp only [hfs] at hres
        cases hys : st'.tracks with
        | nil =>
          have hfiles := resolveGo_files rest fs tr tr (some szf)
            (st1.CD_SIZE + szf) st'.tracks st'.CD_SIZE hres
          rw [hys] at hfiles
          simp at hfiles
        | cons hd tl =>
          rw [hys] at hres hf hshared
          have hfiles := resolveGo_files rest fs tr tr (some szf)
            (st1.CD_SIZE + szf) (hd :: tl) st'.CD_SIZE hres
          simp only [List.map_cons, List.cons.injEq] at hfiles
          obtain ⟨hhdf, htlf⟩ := hfiles
          simp only [nthTrack, List.getD_cons_zero] at hf
          rw [hhdf, hf1] at hf
          have hff : f0 = f := Option.some.inj hf
          subst hff
          simp only [List.tail_cons] at hshared
          have hrest : ∀ t ∈ rest, t.file = none := by
            intro t ht
            have hmem : t.file ∈ List.map cdtrack.file rest :=
              List.mem_map_of_mem cdtrack.file ht
            rw [← htlf] at hmem
            obtain ⟨u, hu, hue⟩ := List.mem_map.mp hmem
            rw [← hue]
            exact hshared u hu
          obtain ⟨hd2, tl2, hys2, hhd2, hsum, hcontig⟩ :=
            resolveGo_chain rest fs tr tr (some szf) (st1.CD_SIZE + szf)
              (hd :: tl) st'.CD_SIZE hrest hres
          have htr0 : tr.byteStart = 0 :=
            hinv tr (by rw [hl]; exact List.mem_cons_self tr rest)
          refine ⟨szf, hfs, ?_, hcontig,
            fun hnn => contig_nonneg_disjoint _ hcontig hnn⟩
          rw [hsum, htr0]
          simp

/-- C2 witness: a loaded two-track single-file disc whose byteSizes sum to
    the file size with contiguous, disjoint ranges. -/
theorem c2_amended_witness :
    ∃ size, (fun s => if s = "a.bin" then some 705600 else none) "a.bin" = some size ∧
      sumBytes
        [{ no := 1, type := "AUDIO", file := some "a.bin", indexes := [⟨1, 0, 0, 0⟩],
           byteSize := 352800 },
         { no := 2, type := "AUDIO", indexes := [⟨1, 0, 2, 0⟩], byteStart := 352800,
           byteSize := 352800, shared := some "a.bin" }] = size ∧
      contig
        [{ no := 1, type := "AUDIO", file := some "a.bin", indexes := [⟨1, 0, 0, 0⟩],
           byteSize := 352800 },
         { no := 2, type := "AUDIO", indexes := [⟨1, 0, 2, 0⟩], byteStart := 352800,
           byteSize := 352800, shared := some "a.bin" }] ∧
      ((∀ t ∈
          ([{ no := 1, type := "AUDIO", file := some "a.bin", indexes := [⟨1, 0, 0, 0⟩],
              byteSize := 352800 },
            { no := 2, type := "AUDIO", indexes := [⟨1, 0, 2, 0⟩], byteStart := 352800,
              byteSize := 352800, shared := some "a.bin" }] : List cdtrack), 0 ≤ t.byteSize) →
        disjointRanges
          [{ no := 1, type := "AUDIO", file := some "a.bin", indexes := [⟨1, 0, 0, 0⟩],
             byteSize := 352800 },
           { no := 2, type := "AUDIO", indexes := [⟨1, 0, 2, 0⟩], byteStart := 352800,
             byteSize := 352800, shared := some "a.bin" }]) :=
  c2_amended (fun s => if s = "a.bin" then some 705600 else none) (fun s => s) "x"
    ["FILE \"a.bin\" BINARY", "TRACK 01 AUDIO", "INDEX 01 00:00:00",
     "TRACK 02 AUDIO", "INDEX 01 00:02:00"] {}
    { CD_ARTIST := "", CD_TITLE := "x", CD_SIZE := 705600, CD_FILE := "x",
      tracks :=
        [{ no := 1, type := "AUDIO", file := some "a.bin", indexes := [⟨1, 0, 0, 0⟩],
           byteSize := 352800 },
         { no := 2, type := "AUDIO", indexes := [⟨1, 0, 2, 0⟩], byteStart := 352800,
           byteSize := 352800, shared := some "a.bin" }],
      openfile := none }
    "a.bin" (by decide) (by decide) (by decide)
